import Mathlib

/-!
# sync-route-tables: a verification development of `main.go`

The daemon copies the IPv4 routes of container-bridge interfaces from the main
kernel routing table into one managed table, once at startup and then for
every route notification.

The program is embedded as explicit state passing over a `World`: the kernel,
the netlink library and the Docker registry are consulted through the oracles
of an `Env`, and every call, sleep and log line is appended to a trace.
A Go runtime panic (nil dereference, slice out of range) ends a run in
`Outcome.crash`.
-/

set_option autoImplicit false

namespace SyncRouteTables

/-! ## Data model -/

/-- Value of `net.IPNet`: an address and a mask, both byte slices. -/
structure IPNet where
  IP : List Nat
  Mask : List Nat
deriving DecidableEq, Repr

/-- A Go string: an immutable sequence of bytes.  Indexing, slicing and `len`
count bytes, not characters. -/
abbrev GoString := List Nat

/-- The UTF-8 encoding of one character. -/
def utf8Bytes (c : Char) : List Nat :=
  if c.toNat < 128 then [c.toNat]
  else if c.toNat < 2048 then [192 + c.toNat / 64, 128 + c.toNat % 64]
  else if c.toNat < 65536 then
    [224 + c.toNat / 4096, 128 + c.toNat / 64 % 64, 128 + c.toNat % 64]
  else
    [240 + c.toNat / 262144, 128 + c.toNat / 4096 % 64, 128 + c.toNat / 64 % 64,
     128 + c.toNat % 64]

/-- The Go string a string literal of the source denotes: its UTF-8 bytes. -/
def bytesOf (s : String) : GoString := s.data.flatMap utf8Bytes

/-- Modelled from the spec: the declaration of `netlink.Route` is not part of
the sources; the record carries the attributes of the RouteRecord of the data
model, which are exactly the attributes `main.go` reads or writes.  `Dst` is a
pointer (`none` is nil), `Src` a byte slice (`[]` is nil). -/
structure Route where
  Dst : Option IPNet
  Table : Int
  LinkIndex : Int
  ILinkIndex : Int
  Protocol : Int
  Scope : Nat
  Src : List Nat
deriving DecidableEq, Repr

/-- Value of `netlink.RouteUpdate`: the message type and the route concerned. -/
structure RouteUpdate where
  Type_ : Nat
  Route : Route
deriving DecidableEq, Repr

/-- What the program uses of a `netlink.Link`: `Attrs().Name` and `Type()`. -/
structure Link where
  Index : Int
  Name : GoString
  Type_ : GoString
deriving DecidableEq, Repr

/-- What the program uses of a Docker `types.NetworkResource`. -/
structure Network where
  ID : GoString
  Name : GoString
  Driver : GoString
  Options : List (GoString × GoString)
deriving DecidableEq, Repr

/-- The globals `managedRouteTable` and `allBridges`, set once from the
command line. -/
structure Config where
  managedRouteTable : Int
  allBridges : Bool
deriving DecidableEq, Repr

/-- The constant `syscall.RTM_NEWROUTE`. -/
def RTM_NEWROUTE : Nat := 24

/-- The constant `syscall.RTM_DELROUTE`. -/
def RTM_DELROUTE : Nat := 25

/-- The constant `syscall.RT_TABLE_MAIN`. -/
def RT_TABLE_MAIN : Int := 254

/-- The constant `netlink.FAMILY_V4`. -/
def FAMILY_V4 : Int := 2

/-- The local `maxRetry` of `handleRouteUpdates`. -/
def maxRetry : Nat := 10

/-- The local `retryTime` of `handleRouteUpdates`: one second, in nanoseconds. -/
def retryTime : Nat := 1000000000

/-! ## Trace, world and outcomes -/

/-- The log statements of `main.go`, one constructor per statement, with the
values they print; an error value is kept as its text. -/
inductive LogLine where
  | errChangeHandle (err : String)
  | errLinkHandle (err : String)
  | addingNewRoute (name : GoString) (dst : IPNet)
  | errChangingRoute (err : String)
  | listening
  | skipNotAdded (ip : List Nat)
  | skipNonIPv4 (ip : List Nat)
  | changeOnInterface (name : GoString)
  | syncingRouteChange
  | foundMatching (val : GoString)
  | noLongerListening
  | failedDocker (err : String)
  | banner
  | gettingNetworks
  | skippingDefaultBridge
  | addingNetworkInfo (name : GoString)
  | completedNetworks
  | errGettingHandle (err : String)
  | errGettingRoutes (err : String)
  | routesOn (name : GoString)
  | syncingAllRoutes
deriving DecidableEq, Repr

/-- Lines that report a failure. -/
def LogLine.isError : LogLine → Bool
  | .errChangeHandle _ => true
  | .errLinkHandle _ => true
  | .errChangingRoute _ => true
  | .failedDocker _ => true
  | .errGettingHandle _ => true
  | .errGettingRoutes _ => true
  | _ => false

/-- One observable action of the program.  A lookup by name is recorded with
the link it returned (nil on error), a route listing with the routes it
returned (`none` when the call panicked). -/
inductive Effect where
  | Log (line : LogLine)
  | NewHandle
  | LinkByIndex (index : Int)
  | LinkByName (name : GoString) (link : Option Link)
  | RouteList (link : Option Link) (family : Int) (answer : Option (List Route))
  | RouteAdd (route : Route)
  | NetworkList
  | Sleep (d : Nat)
deriving DecidableEq, Repr

/-- State outside the program: the kernel routes that `RouteAdd` maintains,
the number of registry queries made so far, and the trace of all actions
(oldest first). -/
structure World where
  routes : List Route
  registryCalls : Nat
  trace : List Effect
deriving DecidableEq, Repr

/-- Append one action to the trace. -/
def World.emit (w : World) (e : Effect) : World :=
  { w with trace := w.trace ++ [e] }

/-- Record one registry query: the counter and the trace. -/
def World.queried (w : World) : World :=
  { w with registryCalls := w.registryCalls + 1, trace := w.trace ++ [.NetworkList] }

/-- A Go map from string to string, as an association list with unique keys. -/
abbrev GoMap := List (GoString × GoString)

/-- Assignment `m[k] = v`. -/
def GoMap.insert (m : GoMap) (k v : GoString) : GoMap :=
  (k, v) :: m.filter (fun p => p.1 != k)

/-- Keys of a map. -/
def GoMap.keys (m : GoMap) : List GoString := m.map Prod.fst

/-- Index expression `m[k]` of a `map[string]string`: the zero value for a
missing key. -/
def GoMap.index (m : GoMap) (k : GoString) : GoString := (m.lookup k).getD []

/-- The collaborators of the program.  Each oracle sees the world at the moment
of the call.  `NewHandle` returns the error, if any; `RouteList` gets whether
its handle is valid and returns `none` when the library itself panics;
`RouteAdd` returns the error, if any, and the kernel routes after the call;
`NetworkList n` is the answer of the registry to its query number `n`;
`rangeOrder` is the order in which the runtime ranges over a map. -/
structure Env where
  NewHandle : World → Option String
  LinkByIndex : World → Int → Except String Link
  LinkByName : World → GoString → Except String Link
  RouteList : World → Bool → Option Link → Int → Option (List Route × Option String)
  RouteAdd : World → Route → Option String × List Route
  NetworkList : Nat → Except String (List Network)
  rangeOrder : GoMap → List GoString
  rangeOrder_perm : ∀ m : GoMap, (rangeOrder m).Perm m.keys

/-- Result of running a piece of the program: it returns, or the Go runtime
panics and the process dies in the world reached. -/
inductive Outcome (α : Type) where
  | done (val : α) (w : World)
  | crash (w : World)
deriving DecidableEq, Repr

/-- World in which a run ended. -/
def Outcome.world {α : Type} : Outcome α → World
  | .done _ w => w
  | .crash w => w

/-- Value returned, if the run returned. -/
def Outcome.result {α : Type} : Outcome α → Option α
  | .done a _ => some a
  | .crash _ => none

/-! ## The `net` package functions used by the IPv4 test -/

/-- The constant `v4InV6Prefix` of package `net`, followed by nothing. -/
def v4InV6Head : List Nat := [0, 0, 0, 0, 0, 0, 0, 0, 0, 0, 255, 255]

/-- Method `net.IP.To4`: the 4-byte form of an IPv4 address, nil otherwise. -/
def To4 (ip : List Nat) : List Nat :=
  if ip.length = 4 then ip
  else if ip.length = 16 ∧ ip.take 12 = v4InV6Head then ip.drop 12
  else []

/-- Text that `net.IP.String` renders, kept structured. -/
inductive IPText where
  | nilText
  | question (bytes : List Nat)
  | dotted (p4 : List Nat)
  | colons (p16 : List Nat)
deriving DecidableEq, Repr

/-- Method `net.IP.String`: "<nil>" for an empty slice, "?" and hex digits for
a length other than 4 or 16, dotted decimal for an IPv4 address, the IPv6 text
form otherwise. -/
def IP_String (ip : List Nat) : IPText :=
  if ip.length = 0 then .nilText
  else if ip.length ≠ 4 ∧ ip.length ≠ 16 then .question ip
  else if (To4 ip).length = 4 then .dotted (To4 ip)
  else .colons ip

/-- Function `net.ParseIP` on the texts above: nil for what is no address
literal, the 16-byte form otherwise. -/
def ParseIP : IPText → List Nat
  | .nilText => []
  | .question _ => []
  | .dotted p4 => v4InV6Head ++ p4
  | .colons p16 => p16

/-! ## The program -/

/-- Function `addRoute` (lines 60-106). -/
def addRoute (env : Env) (cfg : Config) (route : Route) (w : World) : World :=
  match route.Dst with
  | none => w
  | some dst =>
    match env.NewHandle w with
    | some err => (w.emit .NewHandle).emit (.Log (.errChangeHandle err))
    | none =>
      let w1 := w.emit .NewHandle
      match env.LinkByIndex w1 route.LinkIndex with
      | .error err =>
        (w1.emit (.LinkByIndex route.LinkIndex)).emit (.Log (.errLinkHandle err))
      | .ok myLink =>
        let w2 := w1.emit (.LinkByIndex route.LinkIndex)
        let newRoute : Route :=
          { Dst := route.Dst
            Table := cfg.managedRouteTable
            LinkIndex := route.LinkIndex
            ILinkIndex := route.ILinkIndex
            Protocol := route.Protocol
            Scope := route.Scope
            Src := route.Src }
        let w3 := w2.emit (.Log (.addingNewRoute myLink.Name dst))
        let w4 : World :=
          { w3 with routes := (env.RouteAdd w3 newRoute).2
                    trace := w3.trace ++ [.RouteAdd newRoute] }
        match (env.RouteAdd w3 newRoute).1 with
        | none => w4
        | some err =>
          if err = "file exists" then w4
          else w4.emit (.Log (.errChangingRoute err))

/-- Device name `fmt.Sprintf("br-%s", network.ID[:12])`: "br-" followed by the
first 12 bytes of the identifier. -/
def bridgeName (id : GoString) : GoString :=
  bytesOf "br-" ++ id.take 12

/-- The loop of `getDockerNetworks` (lines 176-187) over the networks left,
with the map built so far.  The slice `network.ID[:12]` panics on an
identifier shorter than 12 bytes. -/
def networksLoop : List Network → GoMap → World → Outcome GoMap
  | [], dockerBridges, w => .done dockerBridges w
  | network :: rest, dockerBridges, w =>
    let w1 :=
      if GoMap.index network.Options (bytesOf "com.docker.network.bridge.default_bridge") =
          bytesOf "true"
      then w.emit (.Log .skippingDefaultBridge) else w
    if network.Driver = bytesOf "bridge" then
      let w2 := w1.emit (.Log (.addingNetworkInfo network.Name))
      if network.ID.length < 12 then .crash w2
      else networksLoop rest (dockerBridges.insert (bridgeName network.ID) network.Name) w2
    else networksLoop rest dockerBridges w1

/-- Function `getDockerNetworks` (lines 166-191). -/
def getDockerNetworks (env : Env) (w : World) : Outcome GoMap :=
  let w1 := w.queried
  match env.NetworkList w.registryCalls with
  | .error err => .done [] (w1.emit (.Log (.failedDocker err)))
  | .ok networks =>
    match networksLoop networks [] ((w1.emit (.Log .banner)).emit (.Log .gettingNetworks)) with
    | .crash w2 => .crash w2
    | .done dockerBridges w2 =>
      .done dockerBridges ((w2.emit (.Log .completedNetworks)).emit (.Log .banner))

/-- The retry loop of `handleRouteUpdates` (lines 146-154), with the number of
iterations left; returns `syncRoute`. -/
def retryLoop (env : Env) (interfaceName : GoString) : Nat → World → Outcome Bool
  | 0, w => .done false w
  | n + 1, w =>
    match getDockerNetworks env w with
    | .crash w1 => .crash w1
    | .done dockerBridges w1 =>
      match dockerBridges.lookup interfaceName with
      | some val => .done true (w1.emit (.Log (.foundMatching val)))
      | none => retryLoop env interfaceName n (w1.emit (.Sleep retryTime))

/-- Body of the loop of `handleRouteUpdates` (lines 115-159) for one update.
Evaluating `route.Dst.IP` on a nil `Dst` and `myLink.Attrs()` on the nil link
of a failed lookup are nil dereferences. -/
def handleRouteUpdate (env : Env) (cfg : Config) (routeUpdate : RouteUpdate) (w : World) :
    Outcome Unit :=
  let route := routeUpdate.Route
  if RTM_NEWROUTE ≠ routeUpdate.Type_ then
    match route.Dst with
    | none => .crash w
    | some dst => .done () (w.emit (.Log (.skipNotAdded dst.IP)))
  else
    match route.Dst with
    | none => .crash w
    | some dst =>
      if To4 (ParseIP (IP_String dst.IP)) = [] then
        .done () (w.emit (.Log (.skipNonIPv4 dst.IP)))
      else if route.Table ≠ RT_TABLE_MAIN then .done () w
      else
        match env.LinkByIndex w route.LinkIndex with
        | .error _ => .crash (w.emit (.LinkByIndex route.LinkIndex))
        | .ok myLink =>
          let w1 := w.emit (.LinkByIndex route.LinkIndex)
          if myLink.Type_ ≠ bytesOf "bridge" then .done () w1
          else
            let w2 := w1.emit (.Log (.changeOnInterface myLink.Name))
            if cfg.allBridges then
              .done () (addRoute env cfg route (w2.emit (.Log .syncingRouteChange)))
            else
              match retryLoop env myLink.Name maxRetry w2 with
              | .crash w3 => .crash w3
              | .done true w3 => .done () (addRoute env cfg route w3)
              | .done false w3 => .done () w3

/-- The range over the channel in `handleRouteUpdates` (line 114), on the
updates delivered before the channel is closed. -/
def routeUpdatesLoop (env : Env) (cfg : Config) : List RouteUpdate → World → Outcome Unit
  | [], w => .done () w
  | routeUpdate :: rest, w =>
    match handleRouteUpdate env cfg routeUpdate w with
    | .crash w1 => .crash w1
    | .done _ w1 => routeUpdatesLoop env cfg rest w1

/-- Function `handleRouteUpdates` (lines 108-162). -/
def handleRouteUpdates (env : Env) (cfg : Config) (routeUpdates : List RouteUpdate)
    (w : World) : Outcome Unit :=
  match routeUpdatesLoop env cfg routeUpdates (w.emit (.Log .listening)) with
  | .crash w1 => .crash w1
  | .done _ w1 => .done () (w1.emit (.Log .noLongerListening))

/-- Function `addDockerBridgeRoutes` (lines 195-213).  Both errors are logged
and the function goes on: with the nil link of a failed `LinkByName`, and with
whatever `RouteList` returned. -/
def addDockerBridgeRoutes (env : Env) (cfg : Config) (bridge : GoString) (w : World) :
    Outcome Unit :=
  let intLink := (env.LinkByName w bridge).toOption
  let w1 := w.emit (.LinkByName bridge intLink)
  let handleErr := env.NewHandle w1
  let w2 := w1.emit .NewHandle
  let w3 :=
    match handleErr with
    | some err => w2.emit (.Log (.errGettingHandle err))
    | none => w2
  match env.RouteList w3 handleErr.isNone intLink FAMILY_V4 with
  | none => .crash (w3.emit (.RouteList intLink FAMILY_V4 none))
  | some (routes, err) =>
    let w4 := w3.emit (.RouteList intLink FAMILY_V4 (some routes))
    let w5 :=
      match err with
      | some e => w4.emit (.Log (.errGettingRoutes e))
      | none => w4
    let w6 := w5.emit (.Log (.routesOn bridge))
    .done () (routes.foldl (fun acc route => addRoute env cfg route acc) w6)

/-- The range over the map in `addAllDockerBridgeRoutes` (lines 219-221), on
the keys in the order the runtime yields them. -/
def bridgesLoop (env : Env) (cfg : Config) : List GoString → World → Outcome Unit
  | [], w => .done () w
  | k :: ks, w =>
    match addDockerBridgeRoutes env cfg k w with
    | .crash w1 => .crash w1
    | .done _ w1 => bridgesLoop env cfg ks w1

/-- Function `addAllDockerBridgeRoutes` (lines 217-222). -/
def addAllDockerBridgeRoutes (env : Env) (cfg : Config) (dockerBridges : GoMap)
    (w : World) : Outcome Unit :=
  bridgesLoop env cfg (env.rangeOrder dockerBridges) (w.emit (.Log .syncingAllRoutes))

/-- The startup copy of `main` (line 255):
`addAllDockerBridgeRoutes(getDockerNetworks())`. -/
def bootstrap (env : Env) (cfg : Config) (w : World) : Outcome Unit :=
  match getDockerNetworks env w with
  | .crash w1 => .crash w1
  | .done dockerBridges w1 => addAllDockerBridgeRoutes env cfg dockerBridges w1

/-! ## Observations on a world -/

/-- The record of a `RouteAdd` call, nothing for another action. -/
def Effect.write? : Effect → Option Route
  | .RouteAdd r => some r
  | _ => none

/-- The failure line of a log action, nothing for another action. -/
def Effect.errorLine? : Effect → Option LogLine
  | .Log l => if l.isError then some l else none
  | _ => none

/-- Whether an action is a registry query or a sleep. -/
def Effect.isRetryStep : Effect → Bool
  | .NetworkList => true
  | .Sleep _ => true
  | _ => false

/-- The records passed to `RouteAdd` so far, oldest first. -/
def writes (w : World) : List Route := w.trace.filterMap Effect.write?

/-- The failure lines logged so far. -/
def errorLogs (w : World) : List LogLine := w.trace.filterMap Effect.errorLine?

/-- The registry queries and sleeps made so far, in order. -/
def retrySteps (w : World) : List Effect := w.trace.filter Effect.isRetryStep

/-- The kernel write primitive on a routing table kept as a list of entries:
an absent entry is inserted, for an entry already present the table is left
unchanged and the error is "file exists". -/
def kernelRouteAdd (table : List Route) (r : Route) : Option String × List Route :=
  if r ∈ table then (some "file exists", table) else (none, table ++ [r])

/-- The bridge index one rebuild computes from the networks of a registry
answer, starting from the map built so far; `none` when the slice
`network.ID[:12]` panics. -/
def indexOfNetworks : List Network → GoMap → Option GoMap
  | [], m => some m
  | network :: rest, m =>
    if network.Driver = bytesOf "bridge" then
      if network.ID.length < 12 then none
      else indexOfNetworks rest (m.insert (bridgeName network.ID) network.Name)
    else indexOfNetworks rest m

/-- The bridge index that the registry query number `n` yields: empty when the
registry cannot be reached. -/
def rebuiltIndex (env : Env) (n : Nat) : Option GoMap :=
  match env.NetworkList n with
  | .error _ => some []
  | .ok networks => indexOfNetworks networks []

/-- The rebuild from query number `n` yields an index without the name. -/
def rebuildMisses (env : Env) (name : GoString) (n : Nat) : Bool :=
  match rebuiltIndex env n with
  | some m => (m.lookup name).isNone
  | none => false

/-- The rebuild from query number `n` yields an index with the name. -/
def rebuildHits (env : Env) (name : GoString) (n : Nat) : Bool :=
  match rebuiltIndex env n with
  | some m => (m.lookup name).isSome
  | none => false

/-! ## Sample host -/

/-- An empty world: no route in the managed table, nothing done yet. -/
def w0 : World := { routes := [], registryCalls := 0, trace := [] }

/-- The network 10.1.0.0/24. -/
def net_10_1_0 : IPNet := { IP := [10, 1, 0, 0], Mask := [255, 255, 255, 0] }

/-- The network 10.1.1.0/24. -/
def net_10_1_1 : IPNet := { IP := [10, 1, 1, 0], Mask := [255, 255, 255, 0] }

/-- The network 10.2.0.0/24. -/
def net_10_2_0 : IPNet := { IP := [10, 2, 0, 0], Mask := [255, 255, 255, 0] }

/-- The network 10.3.0.0/24. -/
def net_10_3_0 : IPNet := { IP := [10, 3, 0, 0], Mask := [255, 255, 255, 0] }

/-- A main-table route to `dst` on the link `index`, as the kernel installs it
for an interface address. -/
def linkRoute (dst : Option IPNet) (index : Int) (src : List Nat) : Route :=
  { Dst := dst, Table := RT_TABLE_MAIN, LinkIndex := index, ILinkIndex := 0,
    Protocol := 2, Scope := 253, Src := src }

/-- The network 172.17.0.0/16. -/
def net_172_17 : IPNet := { IP := [172, 17, 0, 0], Mask := [255, 255, 0, 0] }

/-- Links of the sample host: the Ethernet device, the default Docker bridge
docker0 and the bridges of two user-defined networks. -/
def sampleLinkByIndex (i : Int) : Except String Link :=
  if i = 4 then
    .ok { Index := 4, Name := bytesOf "br-abc123def456", Type_ := bytesOf "bridge" }
  else if i = 5 then
    .ok { Index := 5, Name := bytesOf "br-feed0000beef", Type_ := bytesOf "bridge" }
  else if i = 3 then .ok { Index := 3, Name := bytesOf "docker0", Type_ := bytesOf "bridge" }
  else if i = 2 then .ok { Index := 2, Name := bytesOf "eth0", Type_ := bytesOf "device" }
  else .error "Link not found"

/-- Links of the sample host, by name. -/
def sampleLinkByName (name : GoString) : Except String Link :=
  if name = bytesOf "br-abc123def456" then sampleLinkByIndex 4
  else if name = bytesOf "br-feed0000beef" then sampleLinkByIndex 5
  else if name = bytesOf "docker0" then sampleLinkByIndex 3
  else if name = bytesOf "eth0" then sampleLinkByIndex 2
  else .error "Link not found"

/-- Current IPv4 routes of the sample host per link; a nil link lists them all. -/
def sampleRoutes : Option Link → List Route
  | some l =>
    if l.Index = 4 then
      [linkRoute (some net_10_1_0) 4 [10, 1, 0, 1], linkRoute (some net_10_1_1) 4 [10, 1, 1, 1]]
    else if l.Index = 5 then [linkRoute (some net_10_3_0) 5 [10, 3, 0, 1]]
    else if l.Index = 3 then [linkRoute (some net_172_17) 3 [172, 17, 0, 1]]
    else if l.Index = 2 then [linkRoute none 2 [], linkRoute (some net_10_2_0) 2 [10, 2, 0, 7]]
    else []
  | none =>
    [linkRoute none 2 [], linkRoute (some net_10_2_0) 2 [10, 2, 0, 7],
     linkRoute (some net_172_17) 3 [172, 17, 0, 1],
     linkRoute (some net_10_1_0) 4 [10, 1, 0, 1], linkRoute (some net_10_1_1) 4 [10, 1, 1, 1],
     linkRoute (some net_10_3_0) 5 [10, 3, 0, 1]]

/-- The sample host with a given sequence of registry answers: handles are
always obtained, the kernel table behaves as `kernelRouteAdd`, maps are ranged
in the order of their entries. -/
def sampleEnv (answers : Nat → Except String (List Network)) : Env where
  NewHandle := fun _ => none
  LinkByIndex := fun _ i => sampleLinkByIndex i
  LinkByName := fun _ name => sampleLinkByName name
  RouteList := fun _ _ l _ => some (sampleRoutes l, none)
  RouteAdd := fun w r => kernelRouteAdd w.routes r
  NetworkList := answers
  rangeOrder := fun m => m.keys
  rangeOrder_perm := fun _ => List.Perm.refl _

/-- Registry entry of the bridge network whose device is br-abc123def456. -/
def abcNetwork : Network :=
  { ID := bytesOf "abc123def4567890abc123def4567890abc123def4567890abc123def4567890",
    Name := bytesOf "frontend", Driver := bytesOf "bridge", Options := [] }

/-- Registry entry of the default bridge network: its driver is "bridge", its
device is docker0, and no device is named after its identifier. -/
def defaultNetwork : Network :=
  { ID := bytesOf "0123456789abcdef0123456789abcdef0123456789abcdef0123456789abcdef",
    Name := bytesOf "bridge", Driver := bytesOf "bridge",
    Options := [(bytesOf "com.docker.network.bridge.default_bridge", bytesOf "true"),
                (bytesOf "com.docker.network.bridge.name", bytesOf "docker0")] }

/-- Registry entry of the bridge network whose device is br-feed0000beef. -/
def feedNetwork : Network :=
  { ID := bytesOf "feed0000beef1234feed0000beef1234feed0000beef1234feed0000beef1234",
    Name := bytesOf "backend", Driver := bytesOf "bridge", Options := [] }

/-- Registry entry of a network with another driver. -/
def overlayNetwork : Network :=
  { ID := bytesOf "89abcdef0123456789abcdef0123456789abcdef0123456789abcdef01234567",
    Name := bytesOf "mesh", Driver := bytesOf "overlay", Options := [] }

/-- Configuration used in the examples: managed table 100, registry-only mode. -/
def sampleCfg : Config := { managedRouteTable := 100, allBridges := false }

/-- The second world differs from the first by log lines only. -/
def OnlyLogged (w w1 : World) : Prop :=
  w1.routes = w.routes ∧ w1.registryCalls = w.registryCalls ∧
    ∃ ls : List LogLine, w1.trace = w.trace ++ ls.map Effect.Log

/-- The retry steps of `k` failed attempts with a sleep of `d` nanoseconds:
each one a registry query followed by that sleep. -/
def failedAttempts (d : Nat) : Nat → List Effect
  | 0 => []
  | k + 1 => [Effect.NetworkList, Effect.Sleep d] ++ failedAttempts d k

/-- The record `addRoute` hands to `RouteAdd` for a route: the route with the
managed table; nothing for a route without destination. -/
def projectedRecord (cfg : Config) (r : Route) : Option Route :=
  if r.Dst.isSome then some { r with Table := cfg.managedRouteTable } else none

/-- Whether an action is a lookup of a device by name or a route listing. -/
def Effect.isDeviceStep : Effect → Bool
  | .LinkByName _ _ => true
  | .RouteList _ _ _ => true
  | _ => false

/-- The lookups by name and route listings made so far, in order. -/
def deviceSteps (w : World) : List Effect := w.trace.filter Effect.isDeviceStep

/-- One bridge of the startup copy as the trace shows it: the name looked up,
the link the lookup returned and what the route listing returned. -/
abbrev DeviceStep := GoString × Option Link × Option (List Route)

/-- A registry that knows no network. -/
def emptyRegistry : Nat → Except String (List Network) := fun _ => .ok []

/-- A registry that knows the bridge network of br-abc123def456 and one
overlay network. -/
def startupRegistry : Nat → Except String (List Network) :=
  fun _ => .ok [abcNetwork, overlayNetwork]

/-- A registry that publishes the bridge network of br-feed0000beef from its
third answer on. -/
def laggingRegistry : Nat → Except String (List Network) :=
  fun n => if n < 2 then .ok [] else .ok [feedNetwork]

/-- The link of the bridge br-feed0000beef on the sample host. -/
def feedLink : Link :=
  { Index := 5, Name := bytesOf "br-feed0000beef", Type_ := bytesOf "bridge" }

/-- The link of the bridge br-abc123def456 on the sample host. -/
def abcLink : Link :=
  { Index := 4, Name := bytesOf "br-abc123def456", Type_ := bytesOf "bridge" }

/-- A registry that knows only the default bridge network. -/
def defaultRegistry : Nat → Except String (List Network) := fun _ => .ok [defaultNetwork]

/-- The main-table route 10.3.0.0/24 on the bridge br-feed0000beef. -/
def feedRoute : Route := linkRoute (some net_10_3_0) 5 [10, 3, 0, 1]

/-- The main-table route 10.1.0.0/24 on the bridge br-abc123def456. -/
def abcRoute : Route := linkRoute (some net_10_1_0) 4 [10, 1, 0, 1]

/-- A default route (no destination) on the Ethernet device. -/
def defaultRoute : Route := linkRoute none 2 []

/-! ## Basic facts on worlds -/

@[simp]
theorem emit_routes (w : World) (e : Effect) : (w.emit e).routes = w.routes := rfl

@[simp]
theorem emit_registryCalls (w : World) (e : Effect) :
    (w.emit e).registryCalls = w.registryCalls := rfl

@[simp]
theorem emit_trace (w : World) (e : Effect) : (w.emit e).trace = w.trace ++ [e] := rfl

@[simp]
theorem writes_emit (w : World) (e : Effect) :
    writes (w.emit e) = writes w ++ e.write?.toList := by
  cases h : e.write? <;> simp [writes, List.filterMap_append, h]

@[simp]
theorem errorLogs_emit (w : World) (e : Effect) :
    errorLogs (w.emit e) = errorLogs w ++ e.errorLine?.toList := by
  cases h : e.errorLine? <;> simp [errorLogs, List.filterMap_append, h]

@[simp]
theorem retrySteps_emit (w : World) (e : Effect) :
    retrySteps (w.emit e) = retrySteps w ++ (if e.isRetryStep then [e] else []) := by
  cases h : e.isRetryStep <;> simp [retrySteps, List.filter_append, h]

/-- The record `addRoute` builds (lines 80-88) is the input route with the
table replaced. -/
theorem newRoute_eq (cfg : Config) (route : Route) :
    ({ Dst := route.Dst, Table := cfg.managedRouteTable, LinkIndex := route.LinkIndex,
       ILinkIndex := route.ILinkIndex, Protocol := route.Protocol, Scope := route.Scope,
       Src := route.Src } : Route) = { route with Table := cfg.managedRouteTable } := rfl

/-- What `addRoute` does when the route has a destination and the handle and
the link are obtained: one `RouteAdd` of the projected record, and a failure
line only for an error other than "file exists". -/
theorem addRoute_of_resolved (env : Env) (cfg : Config) (route : Route) (w : World)
    (dst : IPNet) (myLink : Link) (hdst : route.Dst = some dst)
    (hhandle : env.NewHandle w = none)
    (hlink : env.LinkByIndex (w.emit .NewHandle) route.LinkIndex = .ok myLink) :
    let newRoute : Route := { route with Table := cfg.managedRouteTable }
    let w3 := ((w.emit .NewHandle).emit (.LinkByIndex route.LinkIndex)).emit
      (.Log (.addingNewRoute myLink.Name dst))
    writes (addRoute env cfg route w) = writes w ++ [newRoute] ∧
    (addRoute env cfg route w).routes = (env.RouteAdd w3 newRoute).2 ∧
    (addRoute env cfg route w).registryCalls = w.registryCalls ∧
    retrySteps (addRoute env cfg route w) = retrySteps w ∧
    errorLogs (addRoute env cfg route w) = errorLogs w ++
      (match (env.RouteAdd w3 newRoute).1 with
       | none => []
       | some err => if err = "file exists" then [] else [.errChangingRoute err]) := by
  intro newRoute w3
  obtain ⟨rDst, rTable, rLink, rILink, rProto, rScope, rSrc⟩ := route
  simp only at hdst hlink
  subst hdst
  unfold addRoute
  simp only [hhandle, hlink]
  cases hadd : (env.RouteAdd w3 newRoute).1 with
  | none =>
    simp only [w3, newRoute] at hadd
    simp [w3, newRoute, hadd, writes, errorLogs, retrySteps, List.filterMap_append,
      List.filter_append, Effect.write?, Effect.errorLine?, Effect.isRetryStep,
      LogLine.isError]
  | some err =>
    simp only [w3, newRoute] at hadd
    by_cases herr : err = "file exists"
    · simp [w3, newRoute, hadd, herr, writes, errorLogs, retrySteps, List.filterMap_append,
        List.filter_append, Effect.write?, Effect.errorLine?, Effect.isRetryStep,
        LogLine.isError]
    · simp [w3, newRoute, hadd, herr, writes, errorLogs, retrySteps, List.filterMap_append,
        List.filter_append, Effect.write?, Effect.errorLine?, Effect.isRetryStep,
        LogLine.isError, World.emit]

/-- Whatever happens, `addRoute` makes no registry query and no sleep. -/
theorem addRoute_registryCalls (env : Env) (cfg : Config) (route : Route) (w : World) :
    (addRoute env cfg route w).registryCalls = w.registryCalls ∧
    retrySteps (addRoute env cfg route w) = retrySteps w := by
  unfold addRoute
  cases route.Dst with
  | none => exact ⟨rfl, rfl⟩
  | some dst =>
    cases env.NewHandle w with
    | some err => simp [Effect.isRetryStep]
    | none =>
      dsimp only
      cases env.LinkByIndex (w.emit .NewHandle) route.LinkIndex with
      | error err => simp [Effect.isRetryStep]
      | ok myLink =>
        dsimp only
        split
        · simp [retrySteps, List.filter_append, Effect.isRetryStep]
        · split <;>
            simp [retrySteps, List.filter_append, Effect.isRetryStep, World.emit]

/-- A route without destination leaves the world as it is. -/
theorem addRoute_of_no_dst (env : Env) (cfg : Config) (route : Route) (w : World)
    (hdst : route.Dst = none) : addRoute env cfg route w = w := by
  unfold addRoute
  simp [hdst]

/-- The IPv4 test of line 121 on an address agrees with `To4` on it: printing
and parsing an address does not change whether it is IPv4. -/
theorem ipv4_test_eq (ip : List Nat) : (To4 (ParseIP (IP_String ip)) = []) ↔ (To4 ip = []) := by
  unfold IP_String
  by_cases h0 : ip.length = 0
  · have : ip = [] := List.length_eq_zero.mp h0
    subst this
    simp [ParseIP, To4]
  · by_cases h4 : ip.length = 4
    · have hne : ip ≠ [] := fun h => h0 (by simp [h])
      simp [h4, ParseIP, To4, v4InV6Head, hne]
    · by_cases h16 : ip.length = 16
      · by_cases hp : ip.take 12 = v4InV6Head
        · have hd : (ip.drop 12).length = 4 := by simp [h16]
          have hdne : ip.drop 12 ≠ [] := fun h => by simp [h] at hd
          have h12 : ¬ (16 ≤ 12) := by decide
          simp [To4, h16, hp, hd, ParseIP, v4InV6Head, hdne]
        · simp [To4, h16, hp, ParseIP, h0]
      · simp [To4, h0, h4, h16, ParseIP]

/-- An update that is not an addition and carries a destination is skipped
with one log line. -/
theorem handleRouteUpdate_not_added (env : Env) (cfg : Config) (ty : Nat) (route : Route)
    (dst : IPNet) (w : World) (hty : ty ≠ RTM_NEWROUTE) (hdst : route.Dst = some dst) :
    handleRouteUpdate env cfg { Type_ := ty, Route := route } w =
      .done () (w.emit (.Log (.skipNotAdded dst.IP))) := by
  unfold handleRouteUpdate
  simp [hdst, Ne.symm hty]

/-- An addition whose destination is not IPv4 is skipped with one log line. -/
theorem handleRouteUpdate_non_ipv4 (env : Env) (cfg : Config) (route : Route)
    (dst : IPNet) (w : World) (hdst : route.Dst = some dst) (hv6 : To4 dst.IP = []) :
    handleRouteUpdate env cfg { Type_ := RTM_NEWROUTE, Route := route } w =
      .done () (w.emit (.Log (.skipNonIPv4 dst.IP))) := by
  unfold handleRouteUpdate
  simp [hdst, (ipv4_test_eq dst.IP).mpr hv6]

/-- An update that carries a destination and a table other than the main one
is skipped: no write, no registry query, no link lookup. -/
theorem handleRouteUpdate_other_table (env : Env) (cfg : Config) (ty : Nat) (route : Route)
    (dst : IPNet) (w : World) (hdst : route.Dst = some dst)
    (htable : route.Table ≠ RT_TABLE_MAIN) :
    ∃ w1, handleRouteUpdate env cfg { Type_ := ty, Route := route } w = .done () w1 ∧
      writes w1 = writes w ∧ w1.routes = w.routes ∧ w1.registryCalls = w.registryCalls ∧
      (∀ e ∈ w1.trace, e ∈ w.trace ∨ ∃ l, e = .Log l) := by
  unfold handleRouteUpdate
  by_cases hty : RTM_NEWROUTE = ty
  · by_cases hv : To4 (ParseIP (IP_String dst.IP)) = []
    · refine ⟨w.emit (.Log (.skipNonIPv4 dst.IP)), by simp [hdst, hty, hv], ?_, rfl, rfl, ?_⟩
      · simp [Effect.write?]
      · intro e he
        simp only [emit_trace, List.mem_append, List.mem_singleton] at he
        rcases he with he | he
        · exact Or.inl he
        · exact Or.inr ⟨_, he⟩
    · exact ⟨w, by simp [hdst, hty, hv, htable], rfl, rfl, rfl, fun e he => Or.inl he⟩
  · refine ⟨w.emit (.Log (.skipNotAdded dst.IP)), by simp [hdst, hty], ?_, rfl, rfl, ?_⟩
    · simp [Effect.write?]
    · intro e he
      simp only [emit_trace, List.mem_append, List.mem_singleton] at he
      rcases he with he | he
      · exact Or.inl he
      · exact Or.inr ⟨_, he⟩

/-- An addition of an IPv4 main-table route whose link resolves to a link that
is not a bridge is skipped after the lookup. -/
theorem handleRouteUpdate_non_bridge (env : Env) (cfg : Config) (route : Route)
    (dst : IPNet) (myLink : Link) (w : World) (hdst : route.Dst = some dst)
    (hv4 : To4 dst.IP ≠ []) (htable : route.Table = RT_TABLE_MAIN)
    (hlink : env.LinkByIndex w route.LinkIndex = .ok myLink)
    (htype : myLink.Type_ ≠ bytesOf "bridge") :
    handleRouteUpdate env cfg { Type_ := RTM_NEWROUTE, Route := route } w =
      .done () (w.emit (.LinkByIndex route.LinkIndex)) := by
  unfold handleRouteUpdate
  have hv : ¬ To4 (ParseIP (IP_String dst.IP)) = [] := fun h => hv4 ((ipv4_test_eq _).mp h)
  simp [hdst, hv, htable, hlink, htype]

/-- One call of `addRoute` issues no `RouteAdd`, or one `RouteAdd` of the
projected record of a route that has a destination. -/
theorem addRoute_writes_cases (env : Env) (cfg : Config) (route : Route) (w : World) :
    writes (addRoute env cfg route w) = writes w ∨
    (route.Dst ≠ none ∧
      writes (addRoute env cfg route w) =
        writes w ++ [{ route with Table := cfg.managedRouteTable }]) := by
  cases hd : route.Dst with
  | none => exact Or.inl (by rw [addRoute_of_no_dst env cfg route w hd])
  | some dst =>
    cases hh : env.NewHandle w with
    | some err =>
      left
      unfold addRoute
      simp [hd, hh, Effect.write?]
    | none =>
      cases hl : env.LinkByIndex (w.emit .NewHandle) route.LinkIndex with
      | error err =>
        left
        unfold addRoute
        simp [hd, hh, hl, Effect.write?]
      | ok myLink =>
        right
        exact ⟨by simp, by simpa [hd] using (addRoute_of_resolved env cfg route w dst myLink hd hh hl).1⟩

/-- A record that `addRoute` wrote has a destination and the managed table. -/
theorem written_record_shape (env : Env) (cfg : Config) (route : Route) (w : World)
    (r : Route) (hr : r ∈ writes (addRoute env cfg route w)) (hnew : r ∉ writes w) :
    r.Dst ≠ none ∧ r.Table = cfg.managedRouteTable := by
  rcases addRoute_writes_cases env cfg route w with h | ⟨hd, h⟩
  · rw [h] at hr
    exact absurd hr hnew
  · rw [h] at hr
    simp only [List.mem_append, List.mem_singleton] at hr
    rcases hr with hr | hr
    · exact absurd hr hnew
    · subst hr
      exact ⟨hd, rfl⟩

/-! ## The registry query and the retry loop -/

theorem OnlyLogged.refl (w : World) : OnlyLogged w w := ⟨rfl, rfl, [], by simp⟩

theorem OnlyLogged.trans {w w1 w2 : World} (h1 : OnlyLogged w w1) (h2 : OnlyLogged w1 w2) :
    OnlyLogged w w2 := by
  obtain ⟨hr1, hc1, l1, ht1⟩ := h1
  obtain ⟨hr2, hc2, l2, ht2⟩ := h2
  exact ⟨hr2.trans hr1, hc2.trans hc1, l1 ++ l2, by simp [ht2, ht1]⟩

theorem OnlyLogged.emit_log (w : World) (l : LogLine) : OnlyLogged w (w.emit (.Log l)) :=
  ⟨rfl, rfl, [l], by simp⟩

theorem OnlyLogged.writes_eq {w w1 : World} (h : OnlyLogged w w1) : writes w1 = writes w := by
  obtain ⟨_, _, ls, ht⟩ := h
  have : List.filterMap Effect.write? (ls.map Effect.Log) = [] := by
    induction ls with
    | nil => rfl
    | cons a t ih => simp [Effect.write?]
  simp [writes, ht, List.filterMap_append, this]

theorem OnlyLogged.retrySteps_eq {w w1 : World} (h : OnlyLogged w w1) :
    retrySteps w1 = retrySteps w := by
  obtain ⟨_, _, ls, ht⟩ := h
  have : List.filter Effect.isRetryStep (ls.map Effect.Log) = [] := by
    induction ls with
    | nil => rfl
    | cons a t ih => simp [Effect.isRetryStep]
  simp [retrySteps, ht, List.filter_append, this]

/-- The loop of `getDockerNetworks` only logs, and computes `indexOfNetworks`. -/
theorem networksLoop_spec : ∀ (networks : List Network) (m : GoMap) (w : World),
    OnlyLogged w (networksLoop networks m w).world ∧
    (networksLoop networks m w).result = indexOfNetworks networks m := by
  intro networks
  induction networks with
  | nil => intro m w; exact ⟨OnlyLogged.refl w, rfl⟩
  | cons network rest ih =>
    intro m w
    have hw1 : OnlyLogged w
        (if GoMap.index network.Options (bytesOf "com.docker.network.bridge.default_bridge") =
          bytesOf "true"
          then w.emit (.Log .skippingDefaultBridge) else w) := by
      split
      · exact OnlyLogged.emit_log w _
      · exact OnlyLogged.refl w
    unfold networksLoop indexOfNetworks
    by_cases hdrv : network.Driver = bytesOf "bridge"
    · by_cases hid : network.ID.length < 12
      · simp only [hdrv, hid, if_true]
        exact ⟨hw1.trans (OnlyLogged.emit_log _ _), rfl⟩
      · simp only [hdrv, hid, if_true, if_false]
        exact ⟨(hw1.trans (OnlyLogged.emit_log _ _)).trans (ih _ _).1, (ih _ _).2⟩
    · simp only [hdrv, if_false]
      exact ⟨hw1.trans (ih _ _).1, (ih _ _).2⟩

/-- One call of `getDockerNetworks` is one registry query: it yields the index
of the answer number `registryCalls`, writes no route and does not sleep. -/
theorem getDockerNetworks_spec (env : Env) (w : World) :
    (getDockerNetworks env w).result = rebuiltIndex env w.registryCalls ∧
    (getDockerNetworks env w).world.registryCalls = w.registryCalls + 1 ∧
    (getDockerNetworks env w).world.routes = w.routes ∧
    writes (getDockerNetworks env w).world = writes w ∧
    retrySteps (getDockerNetworks env w).world = retrySteps w ++ [Effect.NetworkList] := by
  have base : ∀ w1 : World, OnlyLogged w.queried w1 →
      w1.registryCalls = w.registryCalls + 1 ∧ w1.routes = w.routes ∧
      writes w1 = writes w ∧ retrySteps w1 = retrySteps w ++ [Effect.NetworkList] := by
    intro w1 h
    refine ⟨h.2.1, h.1, ?_, ?_⟩
    · rw [h.writes_eq]
      simp [writes, World.queried, List.filterMap_append, Effect.write?]
    · rw [h.retrySteps_eq]
      simp [retrySteps, World.queried, List.filter_append, Effect.isRetryStep]
  unfold getDockerNetworks rebuiltIndex
  cases hnl : env.NetworkList w.registryCalls with
  | error err =>
    exact ⟨rfl, base _ (OnlyLogged.emit_log _ _)⟩
  | ok networks =>
    dsimp only
    have hloop := networksLoop_spec networks []
      ((w.queried.emit (.Log .banner)).emit (.Log .gettingNetworks))
    have hpre : OnlyLogged w.queried
        ((w.queried.emit (.Log .banner)).emit (.Log .gettingNetworks)) :=
      (OnlyLogged.emit_log _ _).trans (OnlyLogged.emit_log _ _)
    revert hloop
    cases networksLoop networks []
      ((w.queried.emit (.Log .banner)).emit (.Log .gettingNetworks)) with
    | crash w2 =>
      intro hloop
      exact ⟨hloop.2, base _ (hpre.trans hloop.1)⟩
    | done dockerBridges w2 =>
      intro hloop
      exact ⟨hloop.2, base _ ((hpre.trans hloop.1).trans
        ((OnlyLogged.emit_log _ _).trans (OnlyLogged.emit_log _ _)))⟩

/-- The two ways `getDockerNetworks` can end, with what the world then is. -/
theorem getDockerNetworks_cases (env : Env) (w : World) :
    (∃ m w1, getDockerNetworks env w = .done m w1 ∧
      rebuiltIndex env w.registryCalls = some m ∧
      w1.registryCalls = w.registryCalls + 1 ∧ w1.routes = w.routes ∧
      writes w1 = writes w ∧ retrySteps w1 = retrySteps w ++ [Effect.NetworkList]) ∨
    (∃ w1, getDockerNetworks env w = .crash w1 ∧
      rebuiltIndex env w.registryCalls = none ∧
      w1.registryCalls = w.registryCalls + 1 ∧ w1.routes = w.routes ∧
      writes w1 = writes w ∧ retrySteps w1 = retrySteps w ++ [Effect.NetworkList]) := by
  have h := getDockerNetworks_spec env w
  revert h
  cases getDockerNetworks env w with
  | done m w1 =>
    intro h
    exact Or.inl ⟨m, w1, rfl, h.1.symm, h.2⟩
  | crash w1 =>
    intro h
    exact Or.inr ⟨w1, rfl, h.1.symm, h.2⟩

/-- The retry loop when the name is missing from the first `k` rebuilds and
present in the next one, with more than `k` iterations left: it stops with
`syncRoute` set after `k + 1` queries and `k` sleeps. -/
theorem retryLoop_hit (env : Env) (name : GoString) : ∀ (k n : Nat) (w : World), k < n →
    (∀ j, j < k → rebuildMisses env name (w.registryCalls + j) = true) →
    rebuildHits env name (w.registryCalls + k) = true →
    ∃ w1, retryLoop env name n w = .done true w1 ∧
      w1.registryCalls = w.registryCalls + (k + 1) ∧ w1.routes = w.routes ∧
      writes w1 = writes w ∧
      retrySteps w1 = retrySteps w ++ failedAttempts retryTime k ++ [Effect.NetworkList] := by
  intro k
  induction k with
  | zero =>
    intro n w hn _ hhit
    obtain ⟨n, rfl⟩ : ∃ n1, n = n1 + 1 := ⟨n - 1, by omega⟩
    unfold retryLoop
    rcases getDockerNetworks_cases env w with ⟨m, w1, hg, hidx, hc, hr, hw, hs⟩ |
      ⟨w1, hg, hidx, _⟩
    · simp only [rebuildHits, Nat.add_zero, hidx] at hhit
      cases hl : List.lookup name m with
      | none => simp [hl] at hhit
      | some val =>
        refine ⟨w1.emit (.Log (.foundMatching val)), by simp [hg, hl], by simp [hc], by simp [hr],
          by simp [hw, Effect.write?], by simp [hs, failedAttempts, Effect.isRetryStep]⟩
    · simp [rebuildHits, hidx] at hhit
  | succ k ih =>
    intro n w hn hmiss hhit
    obtain ⟨n, rfl⟩ : ∃ n1, n = n1 + 1 := ⟨n - 1, by omega⟩
    unfold retryLoop
    have h0 := hmiss 0 (Nat.succ_pos k)
    rcases getDockerNetworks_cases env w with ⟨m, w1, hg, hidx, hc, hr, hw, hs⟩ |
      ⟨w1, hg, hidx, _⟩
    · simp only [rebuildMisses, Nat.add_zero, hidx] at h0
      cases hl : List.lookup name m with
      | some val => simp [hl] at h0
      | none =>
        have hc2 : (w1.emit (.Sleep retryTime)).registryCalls = w.registryCalls + 1 := by
          simp [hc]
        obtain ⟨w2, hrun, hc3, hr3, hw3, hs3⟩ := ih n (w1.emit (.Sleep retryTime)) (by omega)
          (fun j hj => by
            rw [hc2]
            have := hmiss (j + 1) (by omega)
            rwa [show w.registryCalls + 1 + j = w.registryCalls + (j + 1) by omega])
          (by
            rw [hc2]
            rwa [show w.registryCalls + 1 + k = w.registryCalls + (k + 1) by omega])
        refine ⟨w2, by simp [hg, hl, hrun], by rw [hc3, hc2]; omega, by simp [hr3, hr],
          by simp [hw3, hw, Effect.write?], ?_⟩
        simp [hs3, hs, failedAttempts, Effect.isRetryStep]
    · simp [rebuildMisses, hidx] at h0

/-- The retry loop when the name is missing from every rebuild of the `n`
iterations left: it ends with `syncRoute` unset after `n` queries, each
followed by a sleep. -/
theorem retryLoop_miss (env : Env) (name : GoString) : ∀ (n : Nat) (w : World),
    (∀ j, j < n → rebuildMisses env name (w.registryCalls + j) = true) →
    ∃ w1, retryLoop env name n w = .done false w1 ∧
      w1.registryCalls = w.registryCalls + n ∧ w1.routes = w.routes ∧
      writes w1 = writes w ∧ retrySteps w1 = retrySteps w ++ failedAttempts retryTime n := by
  intro n
  induction n with
  | zero =>
    intro w _
    exact ⟨w, rfl, rfl, rfl, rfl, by simp [failedAttempts]⟩
  | succ n ih =>
    intro w hmiss
    unfold retryLoop
    have h0 := hmiss 0 (Nat.succ_pos n)
    rcases getDockerNetworks_cases env w with ⟨m, w1, hg, hidx, hc, hr, hw, hs⟩ |
      ⟨w1, hg, hidx, _⟩
    · simp only [rebuildMisses, Nat.add_zero, hidx] at h0
      cases hl : List.lookup name m with
      | some val => simp [hl] at h0
      | none =>
        have hc2 : (w1.emit (.Sleep retryTime)).registryCalls = w.registryCalls + 1 := by
          simp [hc]
        obtain ⟨w2, hrun, hc3, hr3, hw3, hs3⟩ := ih (w1.emit (.Sleep retryTime))
          (fun j hj => by
            rw [hc2]
            have := hmiss (j + 1) (by omega)
            rwa [show w.registryCalls + 1 + j = w.registryCalls + (j + 1) by omega])
        refine ⟨w2, by simp [hg, hl, hrun], by rw [hc3, hc2]; omega, by simp [hr3, hr],
          by simp [hw3, hw, Effect.write?], ?_⟩
        simp [hs3, hs, failedAttempts, Effect.isRetryStep]
    · simp [rebuildMisses, hidx] at h0

/-! ## The startup copy -/

@[simp]
theorem deviceSteps_emit (w : World) (e : Effect) :
    deviceSteps (w.emit e) = deviceSteps w ++ (if e.isDeviceStep then [e] else []) := by
  cases h : e.isDeviceStep <;> simp [deviceSteps, List.filter_append, h]

/-- Whatever happens, `addRoute` makes no lookup by name and no route listing. -/
theorem addRoute_deviceSteps (env : Env) (cfg : Config) (route : Route) (w : World) :
    deviceSteps (addRoute env cfg route w) = deviceSteps w := by
  unfold addRoute
  cases route.Dst with
  | none => rfl
  | some dst =>
    cases env.NewHandle w with
    | some err => simp [Effect.isDeviceStep]
    | none =>
      dsimp only
      cases env.LinkByIndex (w.emit .NewHandle) route.LinkIndex with
      | error err => simp [Effect.isDeviceStep]
      | ok myLink =>
        dsimp only
        split
        · simp [deviceSteps, List.filter_append, Effect.isDeviceStep]
        · split <;>
            simp [deviceSteps, List.filter_append, Effect.isDeviceStep, World.emit]

/-- The loop of `addDockerBridgeRoutes` over the listed routes, whatever the
collaborators answer: no registry query, no lookup by name, no route listing. -/
theorem foldl_addRoute_frame (env : Env) (cfg : Config) : ∀ (routes : List Route) (w : World),
    (routes.foldl (fun acc route => addRoute env cfg route acc) w).registryCalls =
      w.registryCalls ∧
    deviceSteps (routes.foldl (fun acc route => addRoute env cfg route acc) w) =
      deviceSteps w := by
  intro routes
  induction routes with
  | nil => intro w; exact ⟨rfl, rfl⟩
  | cons r rest ih =>
    intro w
    simp only [List.foldl_cons]
    exact ⟨(ih _).1.trans (addRoute_registryCalls env cfg r w).1,
      (ih _).2.trans (addRoute_deviceSteps env cfg r w)⟩

/-- The loop of `addDockerBridgeRoutes` over the listed routes, whatever the
collaborators answer: every record written is one of the listed routes that
has a destination, with the managed table as its table. -/
theorem foldl_addRoute_writes_mem (env : Env) (cfg : Config) :
    ∀ (routes : List Route) (w : World),
    ∀ x ∈ writes (routes.foldl (fun acc route => addRoute env cfg route acc) w),
      x ∈ writes w ∨
      ∃ r ∈ routes, r.Dst ≠ none ∧ x = { r with Table := cfg.managedRouteTable } := by
  intro routes
  induction routes with
  | nil => intro w x hx; exact Or.inl hx
  | cons r rest ih =>
    intro w x hx
    simp only [List.foldl_cons] at hx
    rcases ih _ x hx with h | ⟨r1, hr1, hd, he⟩
    · rcases addRoute_writes_cases env cfg r w with hw | ⟨hd, hw⟩
      · rw [hw] at h
        exact Or.inl h
      · rw [hw] at h
        rcases List.mem_append.mp h with h | h
        · exact Or.inl h
        · exact Or.inr ⟨r, List.mem_cons_self _ _, hd, List.mem_singleton.mp h⟩
    · exact Or.inr ⟨r1, List.mem_cons_of_mem _ hr1, hd, he⟩

/-- The loop of `addDockerBridgeRoutes` over the listed routes when handles
are obtained and the links of the routes resolve: one `RouteAdd` per route
that has a destination, of the projected record, in order. -/
theorem foldl_addRoute_writes (env : Env) (cfg : Config)
    (hhandle : ∀ v, env.NewHandle v = none) : ∀ (routes : List Route) (w : World),
    (∀ v, ∀ r ∈ routes, ∃ myLink, env.LinkByIndex v r.LinkIndex = .ok myLink) →
    writes (routes.foldl (fun acc route => addRoute env cfg route acc) w) =
      writes w ++ routes.filterMap (projectedRecord cfg) := by
  intro routes
  induction routes with
  | nil => intro w _; simp
  | cons r rest ih =>
    intro w hlink
    simp only [List.foldl_cons]
    rw [ih _ (fun v x hx => hlink v x (List.mem_cons_of_mem _ hx))]
    cases hd : r.Dst with
    | none =>
      rw [addRoute_of_no_dst env cfg r w hd]
      simp [projectedRecord, hd]
    | some dst =>
      obtain ⟨myLink, hl⟩ := hlink (w.emit .NewHandle) r (List.mem_cons_self _ _)
      rw [(addRoute_of_resolved env cfg r w dst myLink hd (hhandle w) hl).1]
      simp [projectedRecord, hd]

/-- Routes without destination: the loop of `addDockerBridgeRoutes` leaves the
world as it is. -/
theorem foldl_addRoute_no_dst (env : Env) (cfg : Config) : ∀ (routes : List Route) (w : World),
    (∀ r ∈ routes, r.Dst = none) →
    routes.foldl (fun acc route => addRoute env cfg route acc) w = w := by
  intro routes
  induction routes with
  | nil => intro w _; rfl
  | cons r rest ih =>
    intro w h
    simp only [List.foldl_cons]
    rw [addRoute_of_no_dst env cfg r w (h r (List.mem_cons_self _ _))]
    exact ih w (fun x hx => h x (List.mem_cons_of_mem _ hx))

/-- Whatever the collaborators answer, `addDockerBridgeRoutes` makes no
registry query, looks up its bridge by name once and makes one route listing,
for IPv4 and with the link that lookup returned; every record it writes is a
route with a destination that this listing returned, with the managed table as
its table. -/
theorem addDockerBridgeRoutes_steps (env : Env) (cfg : Config) (bridge : GoString)
    (w : World) :
    (addDockerBridgeRoutes env cfg bridge w).world.registryCalls = w.registryCalls ∧
    ∃ answer : Option (List Route),
      deviceSteps (addDockerBridgeRoutes env cfg bridge w).world =
        deviceSteps w ++ [Effect.LinkByName bridge (env.LinkByName w bridge).toOption,
          Effect.RouteList (env.LinkByName w bridge).toOption 2 answer] ∧
      ∀ x ∈ writes (addDockerBridgeRoutes env cfg bridge w).world,
        x ∈ writes w ∨
        ∃ rs, answer = some rs ∧
          ∃ r ∈ rs, r.Dst ≠ none ∧ x = { r with Table := cfg.managedRouteTable } := by
  unfold addDockerBridgeRoutes
  dsimp only
  cases env.NewHandle (w.emit (.LinkByName bridge (env.LinkByName w bridge).toOption)) with
  | none =>
    dsimp only
    cases env.RouteList ((w.emit (.LinkByName bridge (env.LinkByName w bridge).toOption)).emit
        .NewHandle) (none : Option String).isNone (env.LinkByName w bridge).toOption
        FAMILY_V4 with
    | none =>
      refine ⟨rfl, none, by simp [Outcome.world, Effect.isDeviceStep, FAMILY_V4], ?_⟩
      intro x hx
      left
      simpa [Outcome.world, Effect.write?] using hx
    | some p =>
      obtain ⟨routes, err⟩ := p
      dsimp only
      refine ⟨?_, some routes, ?_, ?_⟩
      · simp only [Outcome.world]
        rw [(foldl_addRoute_frame env cfg _ _).1]
        cases err <;> rfl
      · simp only [Outcome.world]
        rw [(foldl_addRoute_frame env cfg _ _).2]
        cases err <;> simp [Effect.isDeviceStep, FAMILY_V4]
      · intro x hx
        simp only [Outcome.world] at hx
        rcases foldl_addRoute_writes_mem env cfg _ _ x hx with h | h
        · left
          revert h
          cases err <;> simp [Effect.write?]
        · exact Or.inr ⟨routes, rfl, h⟩
  | some herr =>
    dsimp only
    cases env.RouteList (((w.emit (.LinkByName bridge (env.LinkByName w bridge).toOption)).emit
        .NewHandle).emit (.Log (.errGettingHandle herr))) (some herr).isNone
        (env.LinkByName w bridge).toOption FAMILY_V4 with
    | none =>
      refine ⟨rfl, none, by simp [Outcome.world, Effect.isDeviceStep, FAMILY_V4], ?_⟩
      intro x hx
      left
      simpa [Outcome.world, Effect.write?] using hx
    | some p =>
      obtain ⟨routes, err⟩ := p
      dsimp only
      refine ⟨?_, some routes, ?_, ?_⟩
      · simp only [Outcome.world]
        rw [(foldl_addRoute_frame env cfg _ _).1]
        cases err <;> rfl
      · simp only [Outcome.world]
        rw [(foldl_addRoute_frame env cfg _ _).2]
        cases err <;> simp [Effect.isDeviceStep, FAMILY_V4]
      · intro x hx
        simp only [Outcome.world] at hx
        rcases foldl_addRoute_writes_mem env cfg _ _ x hx with h | h
        · left
          revert h
          cases err <;> simp [Effect.write?]
        · exact Or.inr ⟨routes, rfl, h⟩

/-- Whatever the collaborators answer, the range over the bridges makes no
registry query and handles a head of the names ranged over, each as
`addDockerBridgeRoutes` does. -/
theorem bridgesLoop_steps (env : Env) (cfg : Config) : ∀ (ks : List GoString) (w : World),
    (bridgesLoop env cfg ks w).world.registryCalls = w.registryCalls ∧
    ∃ steps : List DeviceStep,
      steps.map Prod.fst <+: ks ∧
      deviceSteps (bridgesLoop env cfg ks w).world =
        deviceSteps w ++ steps.flatMap (fun s =>
          [Effect.LinkByName s.1 s.2.1, Effect.RouteList s.2.1 2 s.2.2]) ∧
      ∀ x ∈ writes (bridgesLoop env cfg ks w).world,
        x ∈ writes w ∨
        ∃ s ∈ steps, ∃ rs, s.2.2 = some rs ∧
          ∃ r ∈ rs, r.Dst ≠ none ∧ x = { r with Table := cfg.managedRouteTable } := by
  intro ks
  induction ks with
  | nil =>
    intro w
    exact ⟨rfl, [], by simp, by simp [bridgesLoop, Outcome.world],
      fun x hx => Or.inl (by simpa [bridgesLoop, Outcome.world] using hx)⟩
  | cons k ks ih =>
    intro w
    obtain ⟨hc, answer, hsteps, hwr⟩ := addDockerBridgeRoutes_steps env cfg k w
    unfold bridgesLoop
    revert hc hsteps hwr
    cases addDockerBridgeRoutes env cfg k w with
    | crash w1 =>
      intro hc hsteps hwr
      simp only [Outcome.world] at hc hsteps hwr ⊢
      refine ⟨hc, [(k, (env.LinkByName w k).toOption, answer)], ?_, ?_, ?_⟩
      · simp only [List.map_cons, List.map_nil]
        exact ⟨ks, rfl⟩
      · simpa using hsteps
      · intro x hx
        rcases hwr x hx with h | h
        · exact Or.inl h
        · exact Or.inr ⟨_, List.mem_singleton.mpr rfl, h⟩
    | done u w1 =>
      intro hc hsteps hwr
      simp only [Outcome.world] at hc hsteps hwr
      obtain ⟨hc2, steps, hpre, hst2, hwr2⟩ := ih w1
      refine ⟨hc2.trans hc, (k, (env.LinkByName w k).toOption, answer) :: steps, ?_, ?_, ?_⟩
      · simp only [List.map_cons]
        exact (List.prefix_cons_inj k).mpr hpre
      · simp only [hst2, hsteps, List.flatMap_cons]
        simp
      · intro x hx
        rcases hwr2 x hx with h | ⟨s, hs, h⟩
        · rcases hwr x h with h | h
          · exact Or.inl h
          · exact Or.inr ⟨_, List.mem_cons_self _ _, h⟩
        · exact Or.inr ⟨s, List.mem_cons_of_mem _ hs, h⟩

/-- The startup copy does not read the mode flag. -/
theorem addDockerBridgeRoutes_flag (env : Env) (cfg : Config) (b : Bool) (bridge : GoString)
    (w : World) :
    addDockerBridgeRoutes env { cfg with allBridges := b } bridge w =
      addDockerBridgeRoutes env cfg bridge w := rfl

theorem bridgesLoop_flag (env : Env) (cfg : Config) (b : Bool) : ∀ (ks : List GoString)
    (w : World), bridgesLoop env { cfg with allBridges := b } ks w = bridgesLoop env cfg ks w := by
  intro ks
  induction ks with
  | nil => intro w; rfl
  | cons k ks ih =>
    intro w
    unfold bridgesLoop
    rw [addDockerBridgeRoutes_flag]
    cases addDockerBridgeRoutes env cfg k w with
    | crash w1 => rfl
    | done u w1 => exact ih w1

/-- Keys after an assignment `m[k] = v`. -/
theorem GoMap.keys_insert (m : GoMap) (k v : GoString) :
    (m.insert k v).keys = k :: m.keys.filter (fun x => x != k) := by
  simp only [GoMap.insert, GoMap.keys, List.map_cons]
  congr 1
  induction m with
  | nil => rfl
  | cons p rest ih =>
    by_cases hp : p.1 = k
    · simp [List.filter_cons, hp, ih]
    · simp [List.filter_cons, hp, ih]

theorem GoMap.mem_keys_insert (m : GoMap) (k v x : GoString) :
    x ∈ (m.insert k v).keys ↔ x = k ∨ x ∈ m.keys := by
  rw [GoMap.keys_insert]
  simp only [List.mem_cons, List.mem_filter, bne_iff_ne, ne_eq]
  constructor
  · rintro (h | ⟨h, _⟩)
    · exact Or.inl h
    · exact Or.inr h
  · rintro (h | h)
    · exact Or.inl h
    · by_cases hx : x = k
      · exact Or.inl hx
      · exact Or.inr ⟨h, hx⟩

theorem GoMap.nodup_keys_insert (m : GoMap) (k v : GoString) (h : m.keys.Nodup) :
    (m.insert k v).keys.Nodup := by
  rw [GoMap.keys_insert, List.nodup_cons]
  exact ⟨by simp [List.mem_filter], h.filter _⟩

/-- The index built from the networks of a registry answer, when it is built:
its keys are the keys before and the device names of the bridge networks, each
one once. -/
theorem indexOfNetworks_keys : ∀ (networks : List Network) (m m1 : GoMap),
    indexOfNetworks networks m = some m1 → m.keys.Nodup →
    m1.keys.Nodup ∧
      ∀ k, k ∈ m1.keys ↔
        (k ∈ m.keys ∨
          ∃ n ∈ networks, n.Driver = bytesOf "bridge" ∧ k = bytesOf "br-" ++ n.ID.take 12) := by
  intro networks
  induction networks with
  | nil =>
    intro m m1 h hnd
    simp only [indexOfNetworks, Option.some.injEq] at h
    subst h
    exact ⟨hnd, fun k => by simp⟩
  | cons network rest ih =>
    intro m m1 h hnd
    unfold indexOfNetworks at h
    by_cases hdrv : network.Driver = bytesOf "bridge"
    · by_cases hlen : network.ID.length < 12
      · simp [hdrv, hlen] at h
      · simp only [hdrv, hlen, if_true, if_false] at h
        obtain ⟨hnd1, hk⟩ := ih _ m1 h (GoMap.nodup_keys_insert m _ _ hnd)
        refine ⟨hnd1, fun k => ?_⟩
        rw [hk k, GoMap.mem_keys_insert]
        constructor
        · rintro ((h | h) | ⟨n, hn, hd, he⟩)
          · exact Or.inr ⟨network, List.mem_cons_self _ _, hdrv, h⟩
          · exact Or.inl h
          · exact Or.inr ⟨n, List.mem_cons_of_mem _ hn, hd, he⟩
        · rintro (h | ⟨n, hn, hd, he⟩)
          · exact Or.inl (Or.inr h)
          · rcases List.mem_cons.mp hn with rfl | hn
            · exact Or.inl (Or.inl he)
            · exact Or.inr ⟨n, hn, hd, he⟩
    · simp only [hdrv, if_false] at h
      obtain ⟨hnd1, hk⟩ := ih m m1 h hnd
      refine ⟨hnd1, fun k => ?_⟩
      rw [hk k]
      constructor
      · rintro (h | ⟨n, hn, hd, he⟩)
        · exact Or.inl h
        · exact Or.inr ⟨n, List.mem_cons_of_mem _ hn, hd, he⟩
      · rintro (h | ⟨n, hn, hd, he⟩)
        · exact Or.inl h
        · rcases List.mem_cons.mp hn with rfl | hn
          · exact absurd hd hdrv
          · exact Or.inr ⟨n, hn, hd, he⟩

/-- The index is built when the identifiers of the bridge networks have at
least 12 bytes. -/
theorem indexOfNetworks_isSome : ∀ (networks : List Network) (m : GoMap),
    (∀ n ∈ networks, n.Driver = bytesOf "bridge" → 12 ≤ n.ID.length) →
    ∃ m1, indexOfNetworks networks m = some m1 := by
  intro networks
  induction networks with
  | nil => intro m _; exact ⟨m, rfl⟩
  | cons network rest ih =>
    intro m hid
    unfold indexOfNetworks
    have hrest : ∀ n ∈ rest, n.Driver = bytesOf "bridge" → 12 ≤ n.ID.length :=
      fun n hn => hid n (List.mem_cons_of_mem _ hn)
    by_cases hdrv : network.Driver = bytesOf "bridge"
    · have hlen : ¬ network.ID.length < 12 :=
        Nat.not_lt.mpr (hid network (List.mem_cons_self _ _) hdrv)
      simp only [hdrv, hlen, if_true, if_false]
      exact ih _ hrest
    · simp only [hdrv, if_false]
      exact ih _ hrest

/-- One bridge of the startup copy when handles are obtained, the device
lookup answers `dev`, the kernel lists `listed` and the links of the listed
routes resolve: one `RouteAdd` per listed route that has a destination. -/
theorem addDockerBridgeRoutes_spec (env : Env) (cfg : Config) (dev : GoString → Option Link)
    (listed : Option Link → List Route)
    (hhandle : ∀ v, env.NewHandle v = none)
    (hname : ∀ v name, (env.LinkByName v name).toOption = dev name)
    (hlist : ∀ v l, ∃ err, env.RouteList v true l FAMILY_V4 = some (listed l, err))
    (hlink : ∀ v l, ∀ r ∈ listed l, ∃ myLink, env.LinkByIndex v r.LinkIndex = .ok myLink)
    (bridge : GoString) (w : World) :
    ∃ w1, addDockerBridgeRoutes env cfg bridge w = .done () w1 ∧
      writes w1 = writes w ++ (listed (dev bridge)).filterMap (projectedRecord cfg) := by
  unfold addDockerBridgeRoutes
  dsimp only
  rw [hhandle, hname]
  obtain ⟨err, hl⟩ := hlist ((w.emit (.LinkByName bridge (dev bridge))).emit .NewHandle)
    (dev bridge)
  simp only [Option.isNone_none, hl]
  refine ⟨_, rfl, ?_⟩
  rw [foldl_addRoute_writes env cfg hhandle _ _ (fun v r hr => hlink v _ r hr)]
  cases err <;> simp [Effect.write?]

/-- The range over the bridges under the same assumptions: the bridges are
handled in order. -/
theorem bridgesLoop_spec (env : Env) (cfg : Config) (dev : GoString → Option Link)
    (listed : Option Link → List Route)
    (hhandle : ∀ v, env.NewHandle v = none)
    (hname : ∀ v name, (env.LinkByName v name).toOption = dev name)
    (hlist : ∀ v l, ∃ err, env.RouteList v true l FAMILY_V4 = some (listed l, err))
    (hlink : ∀ v l, ∀ r ∈ listed l, ∃ myLink, env.LinkByIndex v r.LinkIndex = .ok myLink) :
    ∀ (ks : List GoString) (w : World),
    ∃ w1, bridgesLoop env cfg ks w = .done () w1 ∧
      writes w1 = writes w ++
        ks.flatMap (fun k => (listed (dev k)).filterMap (projectedRecord cfg)) := by
  intro ks
  induction ks with
  | nil => intro w; exact ⟨w, rfl, by simp⟩
  | cons k ks ih =>
    intro w
    obtain ⟨w1, h1, hw1⟩ :=
      addDockerBridgeRoutes_spec env cfg dev listed hhandle hname hlist hlink k w
    obtain ⟨w2, h2, hw2⟩ := ih w1
    refine ⟨w2, ?_, ?_⟩
    · unfold bridgesLoop
      simp only [h1]
      exact h2
    · rw [hw2, hw1]
      simp [List.flatMap_cons]

theorem OnlyLogged.deviceSteps_eq {w w1 : World} (h : OnlyLogged w w1) :
    deviceSteps w1 = deviceSteps w := by
  obtain ⟨_, _, ls, ht⟩ := h
  have : List.filter Effect.isDeviceStep (ls.map Effect.Log) = [] := by
    induction ls with
    | nil => rfl
    | cons a t ih => simp [Effect.isDeviceStep]
  simp [deviceSteps, ht, List.filter_append, this]

/-- Apart from the query itself, `getDockerNetworks` only logs. -/
theorem getDockerNetworks_onlyLogged (env : Env) (w : World) :
    OnlyLogged w.queried (getDockerNetworks env w).world := by
  unfold getDockerNetworks
  cases env.NetworkList w.registryCalls with
  | error err => exact OnlyLogged.emit_log _ _
  | ok networks =>
    dsimp only
    have hloop := (networksLoop_spec networks []
      ((w.queried.emit (.Log .banner)).emit (.Log .gettingNetworks))).1
    have hpre : OnlyLogged w.queried
        ((w.queried.emit (.Log .banner)).emit (.Log .gettingNetworks)) :=
      (OnlyLogged.emit_log _ _).trans (OnlyLogged.emit_log _ _)
    revert hloop
    cases networksLoop networks []
      ((w.queried.emit (.Log .banner)).emit (.Log .gettingNetworks)) with
    | crash w2 => intro hloop; exact hpre.trans hloop
    | done dockerBridges w2 =>
      intro hloop
      exact (hpre.trans hloop).trans ((OnlyLogged.emit_log _ _).trans (OnlyLogged.emit_log _ _))

theorem getDockerNetworks_deviceSteps (env : Env) (w : World) :
    deviceSteps (getDockerNetworks env w).world = deviceSteps w := by
  rw [(getDockerNetworks_onlyLogged env w).deviceSteps_eq]
  simp [deviceSteps, World.queried, List.filter_append, Effect.isDeviceStep]

/-- The startup copy makes exactly one registry query, however it ends. -/
theorem bootstrap_registryCalls (env : Env) (cfg : Config) (w : World) :
    (bootstrap env cfg w).world.registryCalls = w.registryCalls + 1 := by
  unfold bootstrap
  rcases getDockerNetworks_cases env w with ⟨m, w1, hg, _, hc, _⟩ | ⟨w1, hg, _, hc, _⟩
  · simp only [hg, addAllDockerBridgeRoutes]
    rw [(bridgesLoop_steps env cfg _ _).1]
    simpa using hc
  · simp only [hg, Outcome.world]
    exact hc

/-- An addition of an IPv4 main-table route whose link lookup fails: the nil
link is dereferenced by `myLink.Attrs()` (line 132). -/
theorem handleRouteUpdate_unresolved_link (env : Env) (cfg : Config) (route : Route)
    (dst : IPNet) (err : String) (w : World) (hdst : route.Dst = some dst)
    (hv4 : To4 dst.IP ≠ []) (htable : route.Table = RT_TABLE_MAIN)
    (hlink : env.LinkByIndex w route.LinkIndex = .error err) :
    handleRouteUpdate env cfg { Type_ := RTM_NEWROUTE, Route := route } w =
      .crash (w.emit (.LinkByIndex route.LinkIndex)) := by
  unfold handleRouteUpdate
  have hv : ¬ To4 (ParseIP (IP_String dst.IP)) = [] := fun h => hv4 ((ipv4_test_eq _).mp h)
  simp [hdst, hv, htable, hlink]

/-- The kernel table model keeps a duplicate-free table duplicate-free, and an
added record is present afterwards. -/
theorem kernelRouteAdd_spec (table : List Route) (r : Route) :
    r ∈ (kernelRouteAdd table r).2 ∧ (table.Nodup → (kernelRouteAdd table r).2.Nodup) ∧
    (r ∈ table → kernelRouteAdd table r = (some "file exists", table)) := by
  unfold kernelRouteAdd
  by_cases h : r ∈ table
  · simp [h]
  · simp only [h, if_false]
    refine ⟨by simp, fun hn => ?_, fun hc => False.elim hc⟩
    rw [List.nodup_append]
    exact ⟨hn, List.nodup_singleton r, by
      intro a ha hb
      rw [List.mem_singleton] at hb
      subst hb
      exact h ha⟩

/-- With a managed table other than the main table, an addition that carries a
record `addRoute` wrote is skipped without a write: the writes of the program
do not trigger further writes. -/
theorem own_write_is_skipped (env : Env) (cfg : Config) (route : Route) (w v : World)
    (r : Route) (hr : r ∈ writes (addRoute env cfg route w)) (hnew : r ∉ writes w)
    (hmanaged : cfg.managedRouteTable ≠ RT_TABLE_MAIN) :
    ∃ v1, handleRouteUpdate env cfg { Type_ := RTM_NEWROUTE, Route := r } v = .done () v1 ∧
      writes v1 = writes v ∧ v1.routes = v.routes := by
  obtain ⟨hd, ht⟩ := written_record_shape env cfg route w r hr hnew
  obtain ⟨dst, hdst⟩ := Option.ne_none_iff_exists'.mp hd
  obtain ⟨v1, h1, h2, h3, _⟩ := handleRouteUpdate_other_table env cfg RTM_NEWROUTE r dst v hdst
    (by rw [ht]; exact hmanaged)
  exact ⟨v1, h1, h2, h3⟩

/-! ## The claims -/

/-- C1 (defect in the code): a route update whose record has no destination is
not ignored.  Whatever its kind, table and link, evaluating `route.Dst.IP` on
the nil `Dst` (line 117 or line 121) panics: `handleRouteUpdates` dies right
after its first log line and never reaches the updates that follow. -/
theorem absent_destination_crashes (env : Env) (cfg : Config) (ty : Nat)
    (table link ilink proto : Int) (scope : Nat) (src : List Nat)
    (rest : List RouteUpdate) (w : World) :
    handleRouteUpdates env cfg
      ({ Type_ := ty,
         Route := { Dst := none, Table := table, LinkIndex := link, ILinkIndex := ilink,
                    Protocol := proto, Scope := scope, Src := src } } :: rest) w =
      .crash (w.emit (.Log .listening)) := by
  unfold handleRouteUpdates routeUpdatesLoop handleRouteUpdate
  by_cases hty : RTM_NEWROUTE = ty <;> simp [hty]

/-- C2 (defect in the code): a removal update that carries a record without
destination is not ignored.  The skip message of line 117 prints
`route.Dst.IP`, so the update panics before the `continue`: nothing is logged
and the loop never goes on to the next update. -/
theorem removal_without_destination_crashes (env : Env) (cfg : Config) (route : Route)
    (rest : List RouteUpdate) (w : World) :
    handleRouteUpdate env cfg { Type_ := RTM_DELROUTE, Route := { route with Dst := none } } w =
      .crash w ∧
    routeUpdatesLoop env cfg
      ({ Type_ := RTM_DELROUTE, Route := { route with Dst := none } } :: rest) w = .crash w := by
  have h : handleRouteUpdate env cfg
      { Type_ := RTM_DELROUTE, Route := { route with Dst := none } } w = .crash w := by
    unfold handleRouteUpdate
    simp [RTM_NEWROUTE, RTM_DELROUTE]
  refine ⟨h, ?_⟩
  unfold routeUpdatesLoop
  rw [h]

/-- C3 (defect in the code): an addition seen on the managed table 100, not the
main table, whose record has no destination is not ignored: on the sample host
the loop panics on it at line 121 and the bridge route that follows is never
handled. -/
theorem other_table_without_destination_crashes :
    routeUpdatesLoop (sampleEnv emptyRegistry) sampleCfg
      [{ Type_ := RTM_NEWROUTE, Route := { defaultRoute with Table := 100 } },
       { Type_ := RTM_NEWROUTE, Route := feedRoute }] w0 = .crash w0 := by
  decide

/-- C4 (defect in the code): an addition of the IPv4 main-table route
10.2.0.0/24 whose link index 9 does not resolve is not ignored: the error of
`LinkByIndex` is dropped and the nil link is dereferenced at line 132, so the
loop panics right after the lookup and the update that follows is never
handled. -/
theorem unresolved_link_crashes :
    sampleLinkByIndex 9 = .error "Link not found" ∧
    routeUpdatesLoop (sampleEnv emptyRegistry) sampleCfg
      [{ Type_ := RTM_NEWROUTE, Route := linkRoute (some net_10_2_0) 9 [10, 2, 0, 7] },
       { Type_ := RTM_NEWROUTE, Route := feedRoute }] w0 =
      .crash (w0.emit (.LinkByIndex 9)) := by
  refine ⟨rfl, ?_⟩
  decide

/-- C5: for a route that has a destination, when the handle is obtained and the
link resolves, `addRoute` issues exactly one `RouteAdd`, and the record written
has the destination, source, link index, inner link index, protocol and scope
of the input route and the managed table as its table, whatever the table of
the input route. -/
theorem addRoute_writes_projected_record (env : Env) (cfg : Config) (route : Route)
    (w : World) (dst : IPNet) (myLink : Link) (hdst : route.Dst = some dst)
    (hhandle : env.NewHandle w = none)
    (hlink : env.LinkByIndex (w.emit .NewHandle) route.LinkIndex = .ok myLink) :
    ∃ newRoute : Route,
      writes (addRoute env cfg route w) = writes w ++ [newRoute] ∧
      newRoute.Dst = route.Dst ∧ newRoute.Src = route.Src ∧
      newRoute.LinkIndex = route.LinkIndex ∧ newRoute.ILinkIndex = route.ILinkIndex ∧
      newRoute.Protocol = route.Protocol ∧ newRoute.Scope = route.Scope ∧
      newRoute.Table = cfg.managedRouteTable :=
  ⟨{ route with Table := cfg.managedRouteTable },
    (addRoute_of_resolved env cfg route w dst myLink hdst hhandle hlink).1,
    rfl, rfl, rfl, rfl, rfl, rfl, rfl⟩

/-- Witness of C5: the route 10.1.0.0/24 of the bridge br-abc123def456 on the
sample host. -/
theorem addRoute_writes_projected_record_witness :
    abcRoute.Dst = some net_10_1_0 ∧
    (sampleEnv emptyRegistry).NewHandle w0 = none ∧
    (sampleEnv emptyRegistry).LinkByIndex (w0.emit .NewHandle) abcRoute.LinkIndex =
      .ok abcLink ∧
    ∃ newRoute : Route,
      writes (addRoute (sampleEnv emptyRegistry) sampleCfg abcRoute w0) =
        writes w0 ++ [newRoute] ∧
      newRoute.Dst = abcRoute.Dst ∧ newRoute.Src = abcRoute.Src ∧
      newRoute.LinkIndex = abcRoute.LinkIndex ∧ newRoute.ILinkIndex = abcRoute.ILinkIndex ∧
      newRoute.Protocol = abcRoute.Protocol ∧ newRoute.Scope = abcRoute.Scope ∧
      newRoute.Table = sampleCfg.managedRouteTable :=
  ⟨rfl, rfl, rfl,
    addRoute_writes_projected_record (sampleEnv emptyRegistry) sampleCfg abcRoute w0
      net_10_1_0 abcLink rfl rfl rfl⟩

/-- C6: for a route without destination `addRoute` returns at once: no handle,
no link lookup, no `RouteAdd`, the world is left as it is.  So the loop of the
startup copy over listed routes that have no destination leaves the world as
it is, and a route update whose record has no destination ends with the same
`RouteAdd` calls as before it. -/
theorem addRoute_skips_absent_destination (env : Env) (cfg : Config) (route : Route)
    (routes : List Route) (ty : Nat) (w : World) (hdst : route.Dst = none)
    (hall : ∀ r ∈ routes, r.Dst = none) :
    addRoute env cfg route w = w ∧
    routes.foldl (fun acc r => addRoute env cfg r acc) w = w ∧
    writes (handleRouteUpdate env cfg { Type_ := ty, Route := route } w).world = writes w := by
  refine ⟨addRoute_of_no_dst env cfg route w hdst, foldl_addRoute_no_dst env cfg routes w hall, ?_⟩
  unfold handleRouteUpdate
  by_cases hty : RTM_NEWROUTE = ty <;> simp [hty, hdst, Outcome.world]

/-- Witness of C6: the default route of the Ethernet device. -/
theorem addRoute_skips_absent_destination_witness :
    defaultRoute.Dst = none ∧
    (∀ r ∈ [defaultRoute, defaultRoute], r.Dst = none) ∧
    addRoute (sampleEnv emptyRegistry) sampleCfg defaultRoute w0 = w0 ∧
    [defaultRoute, defaultRoute].foldl
      (fun acc r => addRoute (sampleEnv emptyRegistry) sampleCfg r acc) w0 = w0 ∧
    writes (handleRouteUpdate (sampleEnv emptyRegistry) sampleCfg
      { Type_ := RTM_NEWROUTE, Route := defaultRoute } w0).world = writes w0 :=
  ⟨rfl, by decide,
    addRoute_skips_absent_destination (sampleEnv emptyRegistry) sampleCfg defaultRoute
      [defaultRoute, defaultRoute] RTM_NEWROUTE w0 rfl (by decide)⟩

/-- C7: over the kernel table model `kernelRouteAdd`, with handles obtained and
the link resolving, two calls of `addRoute` with the same route that has a
destination log no failure either time, both reach `RouteAdd` with the same
record, that record is in the table after the first call, and the table after
the second call equals the table after the first; a duplicate-free table stays
duplicate-free. -/
theorem addRoute_idempotent (env : Env) (cfg : Config) (route : Route) (w : World)
    (dst : IPNet) (hdst : route.Dst = some dst)
    (hkernel : ∀ (v : World) (r : Route), env.RouteAdd v r = kernelRouteAdd v.routes r)
    (hhandle : ∀ v, env.NewHandle v = none)
    (hlink : ∀ v, ∃ myLink, env.LinkByIndex v route.LinkIndex = .ok myLink) :
    errorLogs (addRoute env cfg route w) = errorLogs w ∧
    errorLogs (addRoute env cfg route (addRoute env cfg route w)) = errorLogs w ∧
    writes (addRoute env cfg route (addRoute env cfg route w)) =
      writes w ++ [{ route with Table := cfg.managedRouteTable },
                   { route with Table := cfg.managedRouteTable }] ∧
    { route with Table := cfg.managedRouteTable } ∈ (addRoute env cfg route w).routes ∧
    (addRoute env cfg route (addRoute env cfg route w)).routes =
      (addRoute env cfg route w).routes ∧
    (w.routes.Nodup → (addRoute env cfg route (addRoute env cfg route w)).routes.Nodup) := by
  obtain ⟨l1, hl1⟩ := hlink (w.emit .NewHandle)
  obtain ⟨hw1, hr1, _, _, he1⟩ := addRoute_of_resolved env cfg route w dst l1 hdst (hhandle w) hl1
  obtain ⟨l2, hl2⟩ := hlink ((addRoute env cfg route w).emit .NewHandle)
  obtain ⟨hw2, hr2, _, _, he2⟩ := addRoute_of_resolved env cfg route (addRoute env cfg route w)
    dst l2 hdst (hhandle _) hl2
  simp only [hkernel, emit_routes] at hr1 he1 hr2 he2
  obtain ⟨hmem, hnd, _⟩ := kernelRouteAdd_spec w.routes { route with Table := cfg.managedRouteTable }
  have hin : { route with Table := cfg.managedRouteTable } ∈ (addRoute env cfg route w).routes := by
    rw [hr1]
    exact hmem
  have hsecond := (kernelRouteAdd_spec (addRoute env cfg route w).routes
    { route with Table := cfg.managedRouteTable }).2.2 hin
  rw [hsecond] at hr2 he2
  have hfirst : errorLogs (addRoute env cfg route w) = errorLogs w := by
    rw [he1]
    by_cases h0 : { route with Table := cfg.managedRouteTable } ∈ w.routes
    · simp [kernelRouteAdd, h0]
    · simp [kernelRouteAdd, h0]
  refine ⟨hfirst, ?_, ?_, hin, hr2, fun h => ?_⟩
  · rw [he2, hfirst]
    simp
  · rw [hw2, hw1]
    simp
  · rw [hr2, hr1]
    exact hnd h

/-- Witness of C7: the route 10.1.0.0/24 of the bridge br-abc123def456 on the
sample host, whose kernel table is the model. -/
theorem addRoute_idempotent_witness :
    abcRoute.Dst = some net_10_1_0 ∧
    (∀ (v : World) (r : Route),
      (sampleEnv emptyRegistry).RouteAdd v r = kernelRouteAdd v.routes r) ∧
    (∀ v, (sampleEnv emptyRegistry).NewHandle v = none) ∧
    (∀ v, ∃ myLink, (sampleEnv emptyRegistry).LinkByIndex v abcRoute.LinkIndex = .ok myLink) ∧
    (errorLogs (addRoute (sampleEnv emptyRegistry) sampleCfg abcRoute w0) = errorLogs w0 ∧
    errorLogs (addRoute (sampleEnv emptyRegistry) sampleCfg abcRoute
      (addRoute (sampleEnv emptyRegistry) sampleCfg abcRoute w0)) = errorLogs w0 ∧
    writes (addRoute (sampleEnv emptyRegistry) sampleCfg abcRoute
      (addRoute (sampleEnv emptyRegistry) sampleCfg abcRoute w0)) =
      writes w0 ++ [{ abcRoute with Table := sampleCfg.managedRouteTable },
                    { abcRoute with Table := sampleCfg.managedRouteTable }] ∧
    { abcRoute with Table := sampleCfg.managedRouteTable } ∈
      (addRoute (sampleEnv emptyRegistry) sampleCfg abcRoute w0).routes ∧
    (addRoute (sampleEnv emptyRegistry) sampleCfg abcRoute
      (addRoute (sampleEnv emptyRegistry) sampleCfg abcRoute w0)).routes =
      (addRoute (sampleEnv emptyRegistry) sampleCfg abcRoute w0).routes ∧
    (w0.routes.Nodup → (addRoute (sampleEnv emptyRegistry) sampleCfg abcRoute
      (addRoute (sampleEnv emptyRegistry) sampleCfg abcRoute w0)).routes.Nodup)) :=
  ⟨rfl, fun _ _ => rfl, fun _ => rfl, fun _ => ⟨_, rfl⟩,
    addRoute_idempotent (sampleEnv emptyRegistry) sampleCfg abcRoute w0 net_10_1_0 rfl
      (fun _ _ => rfl) (fun _ => rfl) (fun _ => ⟨_, rfl⟩)⟩

/-- C8: in registry-only mode, for an addition of an IPv4 main-table route whose
link is a bridge, let `k` (from 1 to 10) be the first rebuild of the bridge
index that contains the interface name.  Then the update ends by calling
`addRoute` on the route after exactly `k` registry queries and `k - 1` sleeps
of 1000000000 nanoseconds (one second), one between consecutive queries,
nothing being written before; and when the handle and the link of `addRoute`
resolve, the update has issued exactly one `RouteAdd`, of the route with the
managed table as its table.  If the name is missing from all of the first 10
rebuilds, the update ends after exactly 10 queries, each followed by a sleep
of one second, with no `RouteAdd`.  In both cases the loop goes on with the
next update. -/
theorem retry_is_bounded (env : Env) (cfg : Config) (route : Route) (dst : IPNet)
    (myLink : Link) (rest : List RouteUpdate) (w : World)
    (hmode : cfg.allBridges = false) (hdst : route.Dst = some dst)
    (hv4 : To4 dst.IP ≠ []) (htable : route.Table = RT_TABLE_MAIN)
    (hlink : env.LinkByIndex w route.LinkIndex = .ok myLink)
    (htype : myLink.Type_ = bytesOf "bridge") :
    (∀ k, 1 ≤ k → k ≤ 10 →
      (∀ j, j < k - 1 → rebuildMisses env myLink.Name (w.registryCalls + j) = true) →
      rebuildHits env myLink.Name (w.registryCalls + (k - 1)) = true →
      ∃ w1,
        handleRouteUpdate env cfg { Type_ := RTM_NEWROUTE, Route := route } w =
          .done () (addRoute env cfg route w1) ∧
        routeUpdatesLoop env cfg ({ Type_ := RTM_NEWROUTE, Route := route } :: rest) w =
          routeUpdatesLoop env cfg rest (addRoute env cfg route w1) ∧
        writes w1 = writes w ∧ w1.routes = w.routes ∧
        (addRoute env cfg route w1).registryCalls = w.registryCalls + k ∧
        retrySteps (addRoute env cfg route w1) =
          retrySteps w ++ failedAttempts 1000000000 (k - 1) ++ [Effect.NetworkList] ∧
        (env.NewHandle w1 = none →
          ∀ l, env.LinkByIndex (w1.emit .NewHandle) route.LinkIndex = .ok l →
          writes (addRoute env cfg route w1) =
            writes w ++ [{ route with Table := cfg.managedRouteTable }])) ∧
    ((∀ j, j < 10 → rebuildMisses env myLink.Name (w.registryCalls + j) = true) →
      ∃ w1,
        handleRouteUpdate env cfg { Type_ := RTM_NEWROUTE, Route := route } w = .done () w1 ∧
        routeUpdatesLoop env cfg ({ Type_ := RTM_NEWROUTE, Route := route } :: rest) w =
          routeUpdatesLoop env cfg rest w1 ∧
        writes w1 = writes w ∧ w1.routes = w.routes ∧
        w1.registryCalls = w.registryCalls + 10 ∧
        retrySteps w1 = retrySteps w ++ failedAttempts 1000000000 10) := by
  have hv : ¬ To4 (ParseIP (IP_String dst.IP)) = [] := fun h => hv4 ((ipv4_test_eq _).mp h)
  have hbody : handleRouteUpdate env cfg { Type_ := RTM_NEWROUTE, Route := route } w =
      (match retryLoop env myLink.Name maxRetry
          ((w.emit (.LinkByIndex route.LinkIndex)).emit (.Log (.changeOnInterface myLink.Name))) with
        | .crash w3 => .crash w3
        | .done true w3 => .done () (addRoute env cfg route w3)
        | .done false w3 => .done () w3) := by
    unfold handleRouteUpdate
    simp [hdst, hv, htable, hlink, htype, hmode]
  have hsec : retryTime = 1000000000 := rfl
  constructor
  · intro k hk1 hk10 hmiss hhit
    obtain ⟨w1, hrun, hc, hr, hw, hs⟩ := retryLoop_hit env myLink.Name (k - 1) maxRetry
      ((w.emit (.LinkByIndex route.LinkIndex)).emit (.Log (.changeOnInterface myLink.Name)))
      (by unfold maxRetry; omega) (by simpa using hmiss) (by simpa using hhit)
    have hres : handleRouteUpdate env cfg { Type_ := RTM_NEWROUTE, Route := route } w =
        .done () (addRoute env cfg route w1) := by
      rw [hbody, hrun]
    have hw1 : writes w1 = writes w := by simpa [Effect.write?] using hw
    refine ⟨w1, hres, ?_, hw1, ?_, ?_, ?_, ?_⟩
    · rw [routeUpdatesLoop, hres]
    · simpa using hr
    · rw [(addRoute_registryCalls env cfg route w1).1, hc]
      simp only [emit_registryCalls]
      omega
    · rw [(addRoute_registryCalls env cfg route w1).2, hs, hsec]
      simp [Effect.isRetryStep]
    · intro hh l hl
      rw [(addRoute_of_resolved env cfg route w1 dst l hdst hh hl).1, hw1]
  · intro hmiss
    obtain ⟨w1, hrun, hc, hr, hw, hs⟩ := retryLoop_miss env myLink.Name maxRetry
      ((w.emit (.LinkByIndex route.LinkIndex)).emit (.Log (.changeOnInterface myLink.Name)))
      (by simpa [maxRetry] using hmiss)
    have hres : handleRouteUpdate env cfg { Type_ := RTM_NEWROUTE, Route := route } w =
        .done () w1 := by
      rw [hbody, hrun]
    refine ⟨w1, hres, ?_, ?_, ?_, ?_, ?_⟩
    · rw [routeUpdatesLoop, hres]
    · simpa [Effect.write?] using hw
    · simpa using hr
    · simpa [maxRetry] using hc
    · rw [hs, hsec]
      simp [maxRetry, Effect.isRetryStep]

/-- Witness of C8: the route 10.3.0.0/24 on the bridge br-feed0000beef, whose
network the registry publishes from its third answer on: the route is written
to table 100 after exactly 3 queries and 2 sleeps of one second. -/
theorem retry_is_bounded_witness :
    sampleCfg.allBridges = false ∧ feedRoute.Dst = some net_10_3_0 ∧
    To4 net_10_3_0.IP ≠ [] ∧ feedRoute.Table = RT_TABLE_MAIN ∧
    (sampleEnv laggingRegistry).LinkByIndex w0 feedRoute.LinkIndex = .ok feedLink ∧
    feedLink.Type_ = bytesOf "bridge" ∧
    (∀ j, j < 3 - 1 →
      rebuildMisses (sampleEnv laggingRegistry) feedLink.Name (w0.registryCalls + j) = true) ∧
    rebuildHits (sampleEnv laggingRegistry) feedLink.Name (w0.registryCalls + (3 - 1)) = true ∧
    ∃ w1,
      handleRouteUpdate (sampleEnv laggingRegistry) sampleCfg
          { Type_ := RTM_NEWROUTE, Route := feedRoute } w0 =
        .done () (addRoute (sampleEnv laggingRegistry) sampleCfg feedRoute w1) ∧
      routeUpdatesLoop (sampleEnv laggingRegistry) sampleCfg
          ({ Type_ := RTM_NEWROUTE, Route := feedRoute } :: []) w0 =
        routeUpdatesLoop (sampleEnv laggingRegistry) sampleCfg []
          (addRoute (sampleEnv laggingRegistry) sampleCfg feedRoute w1) ∧
      writes w1 = writes w0 ∧ w1.routes = w0.routes ∧
      (addRoute (sampleEnv laggingRegistry) sampleCfg feedRoute w1).registryCalls =
        w0.registryCalls + 3 ∧
      retrySteps (addRoute (sampleEnv laggingRegistry) sampleCfg feedRoute w1) =
        [Effect.NetworkList, Effect.Sleep 1000000000, Effect.NetworkList,
         Effect.Sleep 1000000000, Effect.NetworkList] ∧
      writes (addRoute (sampleEnv laggingRegistry) sampleCfg feedRoute w1) =
        [{ feedRoute with Table := 100 }] := by
  refine ⟨rfl, rfl, by decide, rfl, rfl, rfl, by decide, by decide, ?_⟩
  obtain ⟨w1, h1, h2, h3, h4, h5, h6, h7⟩ :=
    (retry_is_bounded (sampleEnv laggingRegistry) sampleCfg feedRoute net_10_3_0 feedLink []
      w0 rfl rfl (by decide) rfl rfl rfl).1 3 (by decide) (by decide) (by decide) (by decide)
  exact ⟨w1, h1, h2, h3, h4, h5, h6, h7 rfl feedLink rfl⟩

/-- The slice `network.ID[:12]` counts bytes: an identifier of 7 characters and
14 bytes gives a device name, made of its first 6 characters. -/
theorem bridgeName_counts_bytes :
    (bytesOf "ééééééé").length = 14 ∧
    bridgeName (bytesOf "ééééééé") = bytesOf "br-éééééé" ∧
    indexOfNetworks [{ ID := bytesOf "ééééééé", Name := bytesOf "n", Driver := bytesOf "bridge",
                       Options := [] }] [] =
      some [(bytesOf "br-éééééé", bytesOf "n")] := by
  decide

/-- What the index of a registry answer holds, when it is built: device names
"br-" plus the first 12 bytes of the identifier of a network of the answer
whose driver is "bridge", each one once. -/
theorem rebuiltIndex_keys (env : Env) (n : Nat) (m : GoMap)
    (h : rebuiltIndex env n = some m) :
    m.keys.Nodup ∧
    ∀ k ∈ m.keys, ∃ networks, env.NetworkList n = .ok networks ∧
      ∃ x ∈ networks, x.Driver = bytesOf "bridge" ∧ k = bytesOf "br-" ++ x.ID.take 12 := by
  unfold rebuiltIndex at h
  cases hn : env.NetworkList n with
  | error err =>
    simp only [hn, Option.some.injEq] at h
    subst h
    exact ⟨by simp [GoMap.keys], fun k hk => by simp [GoMap.keys] at hk⟩
  | ok networks =>
    simp only [hn] at h
    obtain ⟨hnd, hk⟩ := indexOfNetworks_keys networks [] m h (by simp [GoMap.keys])
    refine ⟨hnd, fun k hmem => ⟨networks, rfl, ?_⟩⟩
    rcases (hk k).mp hmem with h0 | h1
    · simp [GoMap.keys] at h0
    · exact h1

/-- Startup when every lookup and listing answers: for an answer of the
registry whose bridge networks have identifiers of at least 12 bytes, when
handles are obtained, the device lookup answers `dev`, the kernel lists
`listed` and the links of the listed routes resolve, the bridge index has one
key per device name of a bridge network and the `RouteAdd` calls of the
startup copy are, in range order of the keys, the routes listed for what the
lookup of the key returned that have a destination, each with only its table
replaced by the managed table. -/
theorem bootstrap_with_answering_kernel (env : Env) (cfg : Config) (w : World)
    (networks : List Network) (dev : GoString → Option Link)
    (listed : Option Link → List Route)
    (hanswer : env.NetworkList w.registryCalls = .ok networks)
    (hid : ∀ n ∈ networks, n.Driver = bytesOf "bridge" → 12 ≤ n.ID.length)
    (hhandle : ∀ v, env.NewHandle v = none)
    (hname : ∀ v name, (env.LinkByName v name).toOption = dev name)
    (hlist : ∀ v l, ∃ err, env.RouteList v true l FAMILY_V4 = some (listed l, err))
    (hlink : ∀ v l, ∀ r ∈ listed l, ∃ myLink, env.LinkByIndex v r.LinkIndex = .ok myLink) :
    ∃ (m : GoMap) (w1 w2 : World),
      getDockerNetworks env w = .done m w1 ∧
      (∀ k, k ∈ m.keys ↔
        ∃ n ∈ networks, n.Driver = bytesOf "bridge" ∧ k = bytesOf "br-" ++ n.ID.take 12) ∧
      m.keys.Nodup ∧ (env.rangeOrder m).Perm m.keys ∧
      bootstrap env cfg w = .done () w2 ∧
      writes w2 = writes w ++ (env.rangeOrder m).flatMap (fun k =>
        (listed (dev k)).filterMap (fun r =>
          if r.Dst.isSome then some { r with Table := cfg.managedRouteTable } else none)) := by
  obtain ⟨m1, hidx⟩ := indexOfNetworks_isSome networks [] hid
  obtain ⟨hnd, hkeys⟩ := indexOfNetworks_keys networks [] m1 hidx (by simp [GoMap.keys])
  have hreb : rebuiltIndex env w.registryCalls = some m1 := by
    unfold rebuiltIndex
    rw [hanswer]
    exact hidx
  rcases getDockerNetworks_cases env w with ⟨m, w1, hg, hm, hc, _, hw, _⟩ | ⟨w1, _, hm, _⟩
  · have hmm : m = m1 := by
      rw [hreb] at hm
      exact (Option.some.inj hm).symm
    subst hmm
    obtain ⟨w2, hloop, hw2⟩ := bridgesLoop_spec env cfg dev listed hhandle hname hlist hlink
      (env.rangeOrder m) (w1.emit (.Log .syncingAllRoutes))
    have hboot : bootstrap env cfg w = .done () w2 := by
      unfold bootstrap
      simp only [hg, addAllDockerBridgeRoutes]
      exact hloop
    refine ⟨m, w1, w2, hg, fun k => ?_, hnd, env.rangeOrder_perm m, hboot, ?_⟩
    · rw [hkeys k]
      simp [GoMap.keys]
    · rw [hw2]
      simp only [writes_emit, Effect.write?, Option.toList, List.append_nil, hw]
      rfl
  · rw [hreb] at hm
    exact absurd hm (by simp)

/-- Scenario A on the sample host: the registry knows the bridge network of
br-abc123def456, which owns 10.1.0.0/24 and 10.1.1.0/24, and one overlay
network; both routes are written with table 100, and nothing else. -/
theorem startup_copies_both_routes :
    bridgeName abcNetwork.ID = bytesOf "br-abc123def456" ∧
    deviceSteps (bootstrap (sampleEnv startupRegistry) sampleCfg w0).world =
      [Effect.LinkByName (bytesOf "br-abc123def456") (some abcLink),
       Effect.RouteList (some abcLink) 2 (some (sampleRoutes (some abcLink)))] ∧
    writes (bootstrap (sampleEnv startupRegistry) sampleCfg w0).world =
      [{ linkRoute (some net_10_1_0) 4 [10, 1, 0, 1] with Table := 100 },
       { linkRoute (some net_10_1_1) 4 [10, 1, 1, 1] with Table := 100 }] := by
  decide

/-- C9 (defect in the code): startup with a registry that knows the default
bridge network, whose driver is "bridge" and whose device is docker0.  The
copy derives the name br-0123456789ab from the identifier, no device has that
name, the error of `LinkByName` is dropped (line 196) and `RouteList` is
called with the nil link: the kernel lists every IPv4 route of the main table
and each one that has a destination is written to the managed table, the
routes of the Ethernet device and of both other bridges included.  The routes
copied are not those of the device of the network. -/
theorem missing_device_copies_every_route :
    defaultNetwork.Driver = bytesOf "bridge" ∧
    bridgeName defaultNetwork.ID = bytesOf "br-0123456789ab" ∧
    sampleLinkByName (bytesOf "br-0123456789ab") = .error "Link not found" ∧
    deviceSteps (bootstrap (sampleEnv defaultRegistry) sampleCfg w0).world =
      [Effect.LinkByName (bytesOf "br-0123456789ab") none,
       Effect.RouteList none 2 (some (sampleRoutes none))] ∧
    writes (bootstrap (sampleEnv defaultRegistry) sampleCfg w0).world =
      [{ linkRoute (some net_10_2_0) 2 [10, 2, 0, 7] with Table := 100 },
       { linkRoute (some net_172_17) 3 [172, 17, 0, 1] with Table := 100 },
       { linkRoute (some net_10_1_0) 4 [10, 1, 0, 1] with Table := 100 },
       { linkRoute (some net_10_1_1) 4 [10, 1, 1, 1] with Table := 100 },
       { linkRoute (some net_10_3_0) 5 [10, 3, 0, 1] with Table := 100 }] := by
  refine ⟨?_, ?_, rfl, ?_, ?_⟩ <;> decide

/-- Counterexample to C10: in all-bridges mode, on the sample host whose
registry knows only the network of br-abc123def456, the startup copy queries
the registry once, looks up and lists that device only, and writes its two
routes; the bridge br-feed0000beef, unknown to the registry, owns 10.3.0.0/24
and this route is not copied. -/
theorem all_bridges_startup_uses_registry :
    sampleLinkByName (bytesOf "br-feed0000beef") = .ok feedLink ∧
    feedLink.Type_ = bytesOf "bridge" ∧
    sampleRoutes (some feedLink) = [feedRoute] ∧
    (bootstrap (sampleEnv startupRegistry) { managedRouteTable := 100, allBridges := true }
      w0).world.registryCalls = 1 ∧
    deviceSteps (bootstrap (sampleEnv startupRegistry)
      { managedRouteTable := 100, allBridges := true } w0).world =
      [Effect.LinkByName (bytesOf "br-abc123def456") (some abcLink),
       Effect.RouteList (some abcLink) 2 (some (sampleRoutes (some abcLink)))] ∧
    writes (bootstrap (sampleEnv startupRegistry)
      { managedRouteTable := 100, allBridges := true } w0).world =
      [{ linkRoute (some net_10_1_0) 4 [10, 1, 0, 1] with Table := 100 },
       { linkRoute (some net_10_1_1) 4 [10, 1, 1, 1] with Table := 100 }] ∧
    ({ feedRoute with Table := 100 } : Route) ∉
      writes (bootstrap (sampleEnv startupRegistry)
        { managedRouteTable := 100, allBridges := true } w0).world := by
  refine ⟨rfl, ?_, ?_, ?_, ?_, ?_, ?_⟩ <;> decide

/-- C10 as amended: the startup copy does not depend on the mode flag; in
all-bridges mode it does exactly what it does in registry-only mode.  In both
modes it makes exactly one registry query, and what it looks up and lists is a
sequence of steps, one per name: every name is "br-" plus the first 12 bytes
of the identifier of a network of that answer whose driver is "bridge", no
name comes twice, each step is one lookup of the name followed by one route
listing for IPv4 (family 2) with the link that lookup returned, and every
record written is a route with a destination that one of these listings
returned, with the managed table as its table. -/
theorem bootstrap_ignores_mode (env : Env) (cfg : Config) (w : World) :
    (∀ b : Bool, bootstrap env { cfg with allBridges := b } w = bootstrap env cfg w) ∧
    (bootstrap env cfg w).world.registryCalls = w.registryCalls + 1 ∧
    ∃ steps : List DeviceStep,
      (∀ s ∈ steps, ∃ networks, env.NetworkList w.registryCalls = .ok networks ∧
        ∃ n ∈ networks, n.Driver = bytesOf "bridge" ∧ s.1 = bytesOf "br-" ++ n.ID.take 12) ∧
      (steps.map Prod.fst).Nodup ∧
      deviceSteps (bootstrap env cfg w).world =
        deviceSteps w ++ steps.flatMap (fun s =>
          [Effect.LinkByName s.1 s.2.1, Effect.RouteList s.2.1 2 s.2.2]) ∧
      ∀ x ∈ writes (bootstrap env cfg w).world,
        x ∈ writes w ∨
        ∃ s ∈ steps, ∃ rs, s.2.2 = some rs ∧
          ∃ r ∈ rs, r.Dst ≠ none ∧ x = { r with Table := cfg.managedRouteTable } := by
  refine ⟨fun b => ?_, bootstrap_registryCalls env cfg w, ?_⟩
  · unfold bootstrap
    cases getDockerNetworks env w with
    | crash w1 => rfl
    | done m w1 => exact bridgesLoop_flag env cfg b _ _
  · have hds := getDockerNetworks_deviceSteps env w
    unfold bootstrap
    rcases getDockerNetworks_cases env w with ⟨m, w1, hg, hm, _, _, hw, _⟩ |
      ⟨w1, hg, _, _, _, hw, _⟩
    · rw [hg] at hds
      simp only [Outcome.world] at hds
      simp only [hg, addAllDockerBridgeRoutes]
      obtain ⟨hnd, hkeys⟩ := rebuiltIndex_keys env w.registryCalls m hm
      obtain ⟨_, steps, hpre, hst, hwr⟩ := bridgesLoop_steps env cfg (env.rangeOrder m)
        (w1.emit (.Log .syncingAllRoutes))
      refine ⟨steps, fun s hs => ?_, ?_, ?_, fun x hx => ?_⟩
      · apply hkeys
        apply (env.rangeOrder_perm m).mem_iff.mp
        exact hpre.subset (List.mem_map_of_mem Prod.fst hs)
      · exact (((env.rangeOrder_perm m).nodup_iff).mpr hnd).sublist hpre.sublist
      · rw [hst]
        simp [Effect.isDeviceStep, hds]
      · rcases hwr x hx with h | h
        · left
          simpa [Effect.write?, hw] using h
        · exact Or.inr h
    · rw [hg] at hds
      simp only [Outcome.world] at hds
      simp only [hg, Outcome.world]
      exact ⟨[], by simp, by simp, by simp [hds], fun x hx => Or.inl (by rwa [hw] at hx)⟩

/-- Witness of C10 as amended: on the sample host the outcome of the startup
copy in all-bridges mode is the outcome in registry-only mode, after one
registry query. -/
theorem bootstrap_ignores_mode_witness :
    bootstrap (sampleEnv startupRegistry) { sampleCfg with allBridges := true } w0 =
      bootstrap (sampleEnv startupRegistry) sampleCfg w0 ∧
    (bootstrap (sampleEnv startupRegistry) sampleCfg w0).world.registryCalls =
      w0.registryCalls + 1 :=
  ⟨(bootstrap_ignores_mode (sampleEnv startupRegistry) sampleCfg w0).1 true,
    (bootstrap_ignores_mode (sampleEnv startupRegistry) sampleCfg w0).2.1⟩

end SyncRouteTables
